import Mathlib

/-!
Verification of the Dr. Nudge prescription pipeline.

This file gives a shallow embedding, in Lean 4, of the algorithmic core of the
Dr. Nudge backend (`backend/services/drugService.js`, `backend/server.js`,
`backend/utils/readability.js`, `backend/utils/safetyChecker.js`,
`backend/services/nudgeService.js`, `backend/services/llmService.js`) and
proves, or refutes, the behavioural claims made by the specification.

Modelling conventions:
* JavaScript strings are modelled as `List Char` (`Str`); the empty list plays
  the role of the falsy empty string.
* JavaScript numbers are modelled as `ℕ` (counts, distances, timestamps in
  milliseconds) and `ℚ` (similarity scores, confidence values, readability
  grades).  Decimal literals such as `0.6`, `0.85`, `0.39` are exact in `ℚ`.
* Calls to external HTTP services (RxNorm, OpenAI, Supabase) are modelled as
  explicit environment records of pure functions; a call that may throw is
  given an `Except Unit` result, so the error path of the JavaScript
  `try`/`catch` is an explicit case.
* `async`/`await` sequencing is pure data flow; every function is total.
-/

namespace DrNudge

/-- JavaScript strings, modelled as lists of characters. -/
abbrev Str := List Char

/-- The extraction engine's "unreadable" sentinel value. -/
def sentinel : Str := "CLARIFICATION_NEEDED".toList

/-- `String.toLowerCase()` on the `List Char` model. -/
def lowerStr (s : Str) : Str := s.map Char.toLower

/-- `String.trim()`: strip leading and trailing whitespace. -/
def trimStr (s : Str) : Str :=
  ((s.dropWhile Char.isWhitespace).reverse.dropWhile Char.isWhitespace).reverse

/-- Whether `p` is a (case-sensitive) prefix of `s`. -/
def strStartsWith : Str → Str → Bool
  | [], _ => true
  | _ :: _, [] => false
  | a :: p, b :: s => a == b && strStartsWith p s

/-- JavaScript `String.prototype.includes`: substring containment. -/
def strIncludes : Str → Str → Bool
  | hay, pin =>
    if strStartsWith pin hay then true
    else match hay with
      | [] => false
      | _ :: t => strIncludes t pin

/-- Whether `p` matches at the head of `s` ignoring ASCII case
(the `i` flag of the JavaScript regexes built in `simplifyText`). -/
def ciStartsWith : Str → Str → Bool
  | [], _ => true
  | _ :: _, [] => false
  | a :: p, b :: s => (Char.toLower a == Char.toLower b) && ciStartsWith p s

/-- Worker for `replaceAllCI`.  The fuel argument starts at the length of the
scanned string; every recursive call consumes at least one character (the
pattern is non-empty in the replacing branch), so the fuel never runs out. -/
def replaceAllCIGo (p r : Str) : ℕ → Str → Str
  | _, [] => []
  | 0, s => s
  | fuel + 1, c :: t =>
    if p.length = 0 then c :: t
    else if ciStartsWith p (c :: t) then r ++ replaceAllCIGo p r fuel ((c :: t).drop p.length)
    else c :: replaceAllCIGo p r fuel t

/-- `String.prototype.replace(new RegExp(pattern, 'gi'), plain)` for a literal
`pattern`: replace every (case-insensitive, non-overlapping, leftmost-first)
occurrence of `p` by `r`, continuing after the replaced text. -/
def replaceAllCI (p r s : Str) : Str := replaceAllCIGo p r s.length s

/-- `Array.prototype.join(sep)`. -/
def joinWith (sep : Str) (l : List Str) : Str := List.intercalate sep l

/-- JavaScript `a || b` for strings (empty string is falsy). -/
def strOr (a b : Str) : Str := if a.isEmpty then b else a

/-- Split a string at every character satisfying `p`; delimiter characters are
dropped, and empty segments are kept (the JavaScript callers filter them). -/
def splitOnPred (p : Char → Bool) (s : Str) : List Str :=
  s.foldr (fun c acc =>
    if p c then [] :: acc
    else match acc with
      | [] => [[c]]
      | seg :: rest => (c :: seg) :: rest) [[]]

/-- Decimal representation of a natural number, as a `Str`
(JavaScript template-literal interpolation of a number). -/
def natToStr (n : ℕ) : Str := (toString n).toList

/-!
## `levenshteinDistance` (drugService.js)

The source builds the classic `(len1+1) × (len2+1)` dynamic-programming
matrix row by row; we mirror that construction: `List.range (len2+1)` is
row 0, and each character of `str1` produces the next row.
-/

/-- One row of the Levenshtein matrix after the border cell.  Arguments:
the current character `a` of `str1`, the remaining characters of `str2`,
the previous row from column `j-1` on, and the value of the current row at
column `j-1`. -/
def levRowGo (a : Char) : Str → List ℕ → ℕ → List ℕ
  | [], _, _ => []
  | _ :: _, [], _ => []
  | _ :: _, [_], _ => []
  | b :: ts, pjm1 :: pj :: prest, left =>
    let cost : ℕ := if a = b then 0 else 1
    let v := min (pj + 1) (min (left + 1) (pjm1 + cost))
    v :: levRowGo a ts (pj :: prest) v

/-- `levenshteinDistance(str1, str2)`: the bottom-right cell of the DP matrix. -/
def levenshteinDistance (str1 str2 : Str) : ℕ :=
  let row0 : List ℕ := List.range (str2.length + 1)
  let final := str1.foldl (fun (st : List ℕ × ℕ) a =>
    (st.2 :: levRowGo a str2 st.1 st.2, st.2 + 1)) (row0, 1)
  (final.1.getLast?).getD 0

/-!
## `determineSafetyFlag`, dietary and fallback interaction tables
(drugService.js)
-/

/-- One interaction finding.  `severity` is `none` for findings built from
objects that carry no `severity` property. -/
structure Finding where
  tier : ℕ
  drug : Str
  description : Str
  severity : Option Str
  recommendation : Str
deriving DecidableEq

/-- `{ flag, reasoning }` as returned by `determineSafetyFlag`. -/
structure SafetyVerdict where
  flag : Str
  reasoning : Str
deriving DecidableEq

/-- `drugService.getRecommendation(tier)`. -/
def getRecommendation (tier : ℕ) : Str :=
  if tier = 1 then "STOP — Contact your physician immediately before taking this medication.".toList
  else if tier = 2 then "Schedule a follow-up with your doctor within 7 days. Monitor for side effects.".toList
  else "Be aware of this interaction. Adjust diet as recommended.".toList

/-- `drugService.determineSafetyFlag(interactions)`. -/
def determineSafetyFlag (interactions : List Finding) : SafetyVerdict :=
  if interactions.isEmpty then
    { flag := "GREEN".toList
      reasoning := "No drug interactions detected. Safe to proceed with prescribed dosage.".toList }
  else
    let hasCritical := interactions.any (fun i => i.tier == 1)
    let hasModerate := interactions.any (fun i => i.tier == 2)
    if hasCritical then
      { flag := "RED".toList
        reasoning := "Critical drug interaction detected. Immediate physician consultation required before starting this medication.".toList }
    else if hasModerate then
      { flag := "YELLOW".toList
        reasoning := "Moderate interactions found. Monitor closely and follow up with your doctor within 7 days.".toList }
    else
      { flag := "GREEN".toList
        reasoning := "Only minor dietary interactions found. Safe to proceed with normal precautions.".toList }

/-- Rank of a safety flag, for monotonicity statements:
GREEN `0` < YELLOW `1` < RED `2`. -/
def flagRank (flag : Str) : ℕ :=
  if flag = "RED".toList then 2 else if flag = "YELLOW".toList then 1 else 0

/-- `drugService.getDietaryInteractions(drugName)`: the static dietary table,
looked up by the lowercased drug name (exact key match). -/
def getDietaryInteractions (drugName : Str) : List Finding :=
  let key := lowerStr drugName
  if key = "amlodipine".toList then
    [{ tier := 3, drug := "Grapefruit".toList
       description := "Grapefruit may increase blood levels of amlodipine, increasing the risk of side effects.".toList
       severity := none
       recommendation := "Avoid grapefruit juice while on this medication.".toList }]
  else if key = "atorvastatin".toList then
    [{ tier := 3, drug := "Grapefruit".toList
       description := "Grapefruit can increase statin levels in the blood.".toList
       severity := none
       recommendation := "Limit grapefruit consumption to small amounts.".toList }]
  else if key = "warfarin".toList then
    [{ tier := 2, drug := "Vitamin K foods".toList
       description := "Foods high in Vitamin K (spinach, kale) can reduce warfarin effectiveness.".toList
       severity := none
       recommendation := "Keep vitamin K intake consistent day to day.".toList }]
  else if key = "metformin".toList then
    [{ tier := 3, drug := "Alcohol".toList
       description := "Alcohol increases the risk of lactic acidosis with metformin.".toList
       severity := none
       recommendation := "Limit alcohol consumption.".toList }]
  else if key = "lisinopril".toList then
    [{ tier := 3, drug := "Potassium-rich foods".toList
       description := "Lisinopril can increase potassium. Avoid excess bananas, oranges, salt substitutes.".toList
       severity := none
       recommendation := "Do not take potassium supplements without doctor advice.".toList }]
  else if key = "ciprofloxacin".toList then
    [{ tier := 3, drug := "Dairy products".toList
       description := "Calcium in dairy can reduce ciprofloxacin absorption.".toList
       severity := none
       recommendation := "Take 2 hours before or 6 hours after dairy products.".toList }]
  else []

/-- The `knownInteractions` table of `getFallbackInteractions`, keyed by the
lowercased new-drug name. -/
def knownInteractions (key : Str) : Option (List Str) :=
  if key = "warfarin".toList then
    some ["aspirin".toList, "ibuprofen".toList, "naproxen".toList]
  else if key = "metformin".toList then
    some ["alcohol".toList, "contrast dye".toList]
  else if key = "lisinopril".toList then
    some ["potassium supplements".toList, "spironolactone".toList]
  else if key = "sertraline".toList then
    some ["tramadol".toList, "sumatriptan".toList, "maoi".toList]
  else none

/-- The tier-1 finding pushed by `getFallbackInteractions` for a dangerous
known combination of `drugName` with the current medication `med`. -/
def fallbackDangerFinding (drugName med : Str) : Finding :=
  { tier := 1
    drug := med
    description := "Known interaction between ".toList ++ drugName ++ " and ".toList ++ med
      ++ ". This combination may be dangerous.".toList
    severity := none
    recommendation := "Contact your physician immediately before taking both medications.".toList }

/-- `drugService.getFallbackInteractions(drugName, currentMeds)`: static
well-known dangerous combinations plus the dietary table. -/
def getFallbackInteractions (drugName : Str) (currentMeds : List Str) : List Finding :=
  let key := lowerStr drugName
  let dangerous : List Finding :=
    match knownInteractions key with
    | none => []
    | some meds =>
      currentMeds.filterMap (fun med =>
        if meds.contains (lowerStr med) then some (fallbackDangerFinding drugName med) else none)
  dangerous ++ getDietaryInteractions drugName

/-!
## Readability utilities (utils/readability.js)
-/

/-- Sentence-terminator characters of the `/[.!?]+/` split in
`calculateFleschKincaid`.  Splitting on single characters instead of runs
yields extra empty segments, which the source's
`filter(s => s.trim().length > 0)` removes, so the sentence count agrees. -/
def isSentenceEnd (c : Char) : Bool := c == '.' || c == '!' || c == '?'

/-- The words of a text: split on whitespace, empty fragments dropped
(`cleanText.split(/\s+/).filter(w => w.length > 0)`). -/
def wordsOf (text : Str) : List Str :=
  (splitOnPred (fun c => c.isWhitespace) text).filter (fun w => !w.isEmpty)

/-- Number of maximal runs of vowels (`word.match(/[aeiouy]+/g)` count). -/
def vowelRuns (word : Str) : ℕ :=
  let isVowel (c : Char) : Bool :=
    c == 'a' || c == 'e' || c == 'i' || c == 'o' || c == 'u' || c == 'y'
  (word.foldl (fun (st : ℕ × Bool) c =>
    let v := isVowel c
    (if v && !st.2 then st.1 + 1 else st.1, v)) (0, false)).1

/-- `countSyllables(word)`: lowercase, strip non-letters, short words count 1,
otherwise count vowel groups, subtract a silent final `e`, floor at 1. -/
def countSyllables (word : Str) : ℕ :=
  let w := (lowerStr word).filter (fun c => 'a' ≤ c && c ≤ 'z')
  if w.length ≤ 3 then 1
  else
    let runs := vowelRuns w
    let count : ℤ := if runs = 0 then 1 else (runs : ℤ)
    let count := if w.getLast? = some 'e' then count - 1 else count
    (max 1 count).toNat

/-- `calculateFleschKincaid(text)`: the Flesch–Kincaid grade-level formula
over sentence, word and syllable counts (exact rational arithmetic). -/
def calculateFleschKincaid (text : Str) : ℚ :=
  if (trimStr text).isEmpty then 0
  else
    let cleanText := trimStr text
    let sentences := (splitOnPred isSentenceEnd cleanText).filter
      (fun s => 0 < (trimStr s).length)
    let sentenceCount : ℕ := max sentences.length 1
    let words := wordsOf cleanText
    let wordCount : ℕ := max words.length 1
    let syllableCount : ℕ := (words.map countSyllables).sum
    let gradeLevel : ℚ :=
      (39 / 100) * ((wordCount : ℚ) / (sentenceCount : ℚ))
        + (118 / 10) * ((syllableCount : ℚ) / (wordCount : ℚ)) - 1559 / 100
    if Rat.blt gradeLevel 0 then 0 else gradeLevel

/-- The fixed jargon word list of `detectMedicalJargon`. -/
def jargonWords : List Str :=
  ["contraindicated".toList, "comorbidity".toList, "efficacy".toList,
   "pharmacological".toList, "therapeutic".toList, "administered".toList,
   "cardiovascular".toList, "hypertension".toList, "hypotension".toList,
   "metabolize".toList, "bioavailability".toList, "prophylactic".toList,
   "systemic".toList, "topical".toList, "subcutaneous".toList,
   "intravenous".toList, "titration".toList, "renal".toList, "hepatic".toList,
   "gastrointestinal".toList, "prognosis".toList, "diagnosis".toList,
   "adverse".toList, "reaction".toList, "contraindication".toList,
   "indication".toList, "ventricular".toList, "remodeling".toList,
   "afterload".toList, "preload".toList]

/-- `detectMedicalJargon(text)`: the jargon words occurring (as substrings)
in the lowercased text. -/
def detectMedicalJargon (text : Str) : List Str :=
  let lowerText := lowerStr text
  jargonWords.filter (fun word => strIncludes lowerText word)

/-- Result of `validatePlainLanguage` (the `suggestions` strings and the
constant `targetGrade` field, which no caller reads, are elided; the returned
`gradeLevel` is kept exact instead of rounded to one decimal for display). -/
structure PlainCheck where
  isPlain : Bool
  gradeLevel : ℚ
  jargon : List Str
deriving DecidableEq

/-- `validatePlainLanguage(text)`: grade level ≤ 8 and zero jargon hits. -/
def validatePlainLanguage (text : Str) : PlainCheck :=
  let gradeLevel := calculateFleschKincaid text
  let jargon := detectMedicalJargon text
  { isPlain := decide (gradeLevel ≤ 8) && jargon.isEmpty
    gradeLevel := gradeLevel
    jargon := jargon }

/-- The `MEDICAL_TO_PLAIN` substitution table, in source (insertion) order. -/
def MEDICAL_TO_PLAIN : List (Str × Str) :=
  [("contraindicated".toList, "should not be used".toList),
   ("administered".toList, "given".toList),
   ("cardiovascular".toList, "heart and blood vessels".toList),
   ("hypertension".toList, "high blood pressure".toList),
   ("hypotension".toList, "low blood pressure".toList),
   ("gastrointestinal".toList, "stomach and intestines".toList),
   ("adverse reaction".toList, "bad side effect".toList),
   ("prophylactic".toList, "preventive".toList),
   ("subcutaneous".toList, "under the skin".toList),
   ("intravenous".toList, "into a vein".toList),
   ("therapeutic".toList, "treatment".toList),
   ("efficacy".toList, "how well it works".toList),
   ("comorbidity".toList, "other health condition".toList)]

/-- `simplifyText(text)`: substitute each table entry, case-insensitively,
over the whole text, in table order. -/
def simplifyText (text : Str) : Str :=
  MEDICAL_TO_PLAIN.foldl (fun simplified entry =>
    replaceAllCI entry.1 entry.2 simplified) text

/-!
## Enhanced safety checker (utils/safetyChecker.js)
-/

/-- An entry of the `FOOD_INTERACTIONS` table.  Optional properties of the
JavaScript objects are `Option`-valued. -/
structure FoodEntry where
  avoid : List Str
  reason : Option Str
  timing : Option Str
  note : Option Str
deriving DecidableEq

/-- The `FOOD_INTERACTIONS` table, in source order. -/
def FOOD_INTERACTIONS : List (Str × FoodEntry) :=
  [("warfarin".toList,
    { avoid := ["vitamin K-rich foods (spinach, kale)".toList, "alcohol".toList, "cranberry juice".toList]
      reason := some "Can interfere with blood thinning".toList, timing := none, note := none }),
   ("lisinopril".toList,
    { avoid := ["potassium supplements".toList, "bananas".toList, "salt substitutes".toList]
      reason := some "Can cause high potassium levels".toList, timing := none, note := none }),
   ("amlodipine".toList,
    { avoid := ["grapefruit juice".toList]
      reason := some "Increases drug levels and side effects".toList, timing := none, note := none }),
   ("atorvastatin".toList,
    { avoid := ["grapefruit juice".toList, "large amounts of alcohol".toList]
      reason := some "Can increase side effects and liver damage".toList, timing := none, note := none }),
   ("simvastatin".toList,
    { avoid := ["grapefruit juice".toList]
      reason := some "Increases drug levels and muscle problems".toList, timing := none, note := none }),
   ("ciprofloxacin".toList,
    { avoid := ["dairy products".toList, "calcium supplements".toList]
      reason := some "Reduces medication absorption".toList
      timing := some "Take 2 hours before or after dairy".toList, note := none }),
   ("azithromycin".toList,
    { avoid := ["aluminum/magnesium antacids".toList]
      reason := some "Reduces absorption".toList, timing := none, note := none }),
   ("metronidazole".toList,
    { avoid := ["alcohol".toList]
      reason := some "Causes severe nausea and vomiting".toList, timing := none, note := none }),
   ("metformin".toList,
    { avoid := ["excessive alcohol".toList]
      reason := some "Increases risk of low blood sugar and lactic acidosis".toList, timing := none, note := none }),
   ("ibuprofen".toList,
    { avoid := ["alcohol".toList]
      reason := some "Increases stomach bleeding risk".toList, timing := none, note := none }),
   ("aspirin".toList,
    { avoid := ["alcohol".toList, "other NSAIDs".toList]
      reason := some "Increases bleeding risk".toList, timing := none, note := none }),
   ("omeprazole".toList,
    { avoid := ["none".toList]
      reason := none, timing := none, note := some "Take before meals for best effect".toList }),
   ("levothyroxine".toList,
    { avoid := ["coffee".toList, "soy".toList, "calcium".toList, "iron".toList]
      reason := some "Reduces absorption".toList
      timing := some "Take on empty stomach, 30 min before eating".toList, note := none })]

/-- Result of `checkFoodInteractions`; when no entry applies the source
returns `{ hasFoodInteraction: false }`, modelled by `entry = none`. -/
structure FoodCheck where
  hasFoodInteraction : Bool
  entry : Option FoodEntry
deriving DecidableEq

/-- `checkFoodInteractions(drugName)`: exact key match on the lowercased,
trimmed name first, then a scan for a key contained in the name. -/
def checkFoodInteractions (drugName : Str) : FoodCheck :=
  let normalizedName := trimStr (lowerStr drugName)
  match FOOD_INTERACTIONS.find? (fun kv => kv.1 = normalizedName) with
  | some kv => { hasFoodInteraction := true, entry := some kv.2 }
  | none =>
    match FOOD_INTERACTIONS.find? (fun kv => strIncludes normalizedName kv.1) with
    | some kv => { hasFoodInteraction := true, entry := some kv.2 }
    | none => { hasFoodInteraction := false, entry := none }

/-- A raw entry of the `AGE_WARNINGS` tables. -/
structure AgeRule where
  warning : Str
  alternatives : Option Str
  note : Option Str
deriving DecidableEq

/-- `AGE_WARNINGS.elderly`, in source order. -/
def AGE_WARNINGS_elderly : List (Str × AgeRule) :=
  [("benzodiazepines".toList,
    { warning := "Increased fall risk and confusion in elderly".toList
      alternatives := some "Discuss non-drug options with doctor".toList, note := none }),
   ("diphenhydramine".toList,
    { warning := "Can cause confusion and dizziness in seniors".toList
      alternatives := some "Consider non-drowsy alternatives".toList, note := none }),
   ("aspirin".toList,
    { warning := "Higher bleeding risk in elderly".toList
      alternatives := none, note := some "Monitor for bruising or bleeding".toList }),
   ("nsaids".toList,
    { warning := "Increased stomach and kidney problems".toList
      alternatives := none, note := some "Use lowest effective dose".toList }),
   ("anticholinergics".toList,
    { warning := "Can cause memory problems and confusion".toList
      alternatives := none, note := some "Regular monitoring recommended".toList })]

/-- `AGE_WARNINGS.pediatric`, in source order. -/
def AGE_WARNINGS_pediatric : List (Str × AgeRule) :=
  [("aspirin".toList,
    { warning := "Risk of Reye syndrome in children".toList
      alternatives := some "Use acetaminophen or ibuprofen instead".toList, note := none }),
   ("tetracycline".toList,
    { warning := "Can cause permanent tooth discoloration".toList
      alternatives := none, note := some "Avoid in children under 8".toList }),
   ("fluoroquinolones".toList,
    { warning := "May affect bone and cartilage development".toList
      alternatives := none, note := some "Use only when no alternatives".toList })]

/-- A warning produced by `checkAgeWarnings`. -/
structure AgeWarning where
  category : Str
  severity : Str
  warning : Str
  alternatives : Option Str
  note : Option Str
deriving DecidableEq

/-- `checkAgeWarnings(drugName, patientAge)`: elderly rules at ages `≥ 65`
(severity `moderate`), pediatric rules at ages `< 18` (severity `high`);
a rule fires when its key is contained in the normalized name. -/
def checkAgeWarnings (drugName : Str) (patientAge : ℕ) : List AgeWarning :=
  let normalizedName := trimStr (lowerStr drugName)
  let elderly : List AgeWarning :=
    if 65 ≤ patientAge then
      (AGE_WARNINGS_elderly.filter (fun kv => strIncludes normalizedName kv.1)).map
        (fun kv => { category := "elderly".toList, severity := "moderate".toList
                     warning := kv.2.warning, alternatives := kv.2.alternatives, note := kv.2.note })
    else []
  let pediatric : List AgeWarning :=
    if patientAge < 18 then
      (AGE_WARNINGS_pediatric.filter (fun kv => strIncludes normalizedName kv.1)).map
        (fun kv => { category := "pediatric".toList, severity := "high".toList
                     warning := kv.2.warning, alternatives := kv.2.alternatives, note := kv.2.note })
    else []
  elderly ++ pediatric

/-- A rule of the `DOSAGE_ALERTS` table. -/
structure DosageRule where
  minDose : Option ℕ
  maxDaily : Option ℕ
  alert : Str
  note : Str
deriving DecidableEq

/-- The `DOSAGE_ALERTS` table, keyed by exact lowercased drug name. -/
def DOSAGE_ALERTS (key : Str) : List DosageRule :=
  if key = "aspirin".toList then
    [{ minDose := some 325, maxDaily := none
       alert := "High dose aspirin increases bleeding risk".toList
       note := "Monitor for bruising, black stools".toList }]
  else if key = "acetaminophen".toList then
    [{ minDose := none, maxDaily := some 4000
       alert := "DO NOT exceed 4000mg per day".toList
       note := "Can cause liver damage".toList }]
  else if key = "ibuprofen".toList then
    [{ minDose := none, maxDaily := some 2400
       alert := "DO NOT exceed 2400mg per day".toList
       note := "Higher doses increase stomach and heart risks".toList }]
  else []

/-- Decimal value of a maximal digit run together with the rest of the string. -/
def takeDigits : Str → ℕ → ℕ × Str
  | [], acc => (acc, [])
  | c :: t, acc =>
    if c.isDigit then takeDigits t (acc * 10 + (c.toNat - '0'.toNat))
    else (acc, c :: t)

/-- Leftmost match of the `/(\d+)\s*mg/i` regex of `checkDosageAlerts`:
a digit run, optional whitespace, then `mg` (case-insensitive).  The scan
restarts one character later when a position fails to match. -/
def findMgDose : Str → Option ℕ
  | [] => none
  | c :: t =>
    if c.isDigit then
      let (n, rest) := takeDigits (c :: t) 0
      let afterWs := rest.dropWhile Char.isWhitespace
      if strStartsWith "mg".toList (lowerStr afterWs) then some n
      else findMgDose t
    else findMgDose t

/-- An alert produced by `checkDosageAlerts`. -/
structure DosageAlert where
  severity : Str
  alert : Str
  note : Str
deriving DecidableEq

/-- `checkDosageAlerts(drugName, dosageString)`: if the dosage string carries
an `N mg` amount, fire the threshold rules of the table: `minDose` rules at
`dose ≥ minDose` (severity `high`), `maxDaily` rules at `dose > maxDaily`
(severity `critical`). -/
def checkDosageAlerts (drugName dosageString : Str) : List DosageAlert :=
  let normalizedName := trimStr (lowerStr drugName)
  match findMgDose dosageString with
  | none => []
  | some dose =>
    (DOSAGE_ALERTS normalizedName).foldl (fun alerts rule =>
      let alerts :=
        match rule.minDose with
        | some m =>
          if m ≤ dose then
            alerts ++ [{ severity := "high".toList, alert := rule.alert, note := rule.note }]
          else alerts
        | none => alerts
      match rule.maxDaily with
      | some m =>
        if m < dose then
          alerts ++ [{ severity := "critical".toList, alert := rule.alert, note := rule.note }]
        else alerts
      | none => alerts) []

/-- The report built by `comprehensiveSafetyCheck`. -/
structure SafetyReport where
  drugName : Str
  foodInteractions : FoodCheck
  ageWarnings : List AgeWarning
  dosageAlerts : List DosageAlert
  overallSeverity : Str
deriving DecidableEq

/-- JavaScript truthiness of the optional numeric `patientAge` argument
(`undefined` and `0` are falsy). -/
def jsTruthyAge : Option ℕ → Bool
  | none => false
  | some a => a != 0

/-- `comprehensiveSafetyCheck(drugName, dosage, patientAge, currentMeds)`.
The `currentMeds` argument is accepted but unused, as in the source. -/
def comprehensiveSafetyCheck (drugName dosage : Str) (patientAge : Option ℕ)
    (_currentMeds : List Str) : SafetyReport :=
  let foodInteractions := checkFoodInteractions drugName
  let ageWarnings :=
    if jsTruthyAge patientAge then checkAgeWarnings drugName (patientAge.getD 0) else []
  let dosageAlerts := if !dosage.isEmpty then checkDosageAlerts drugName dosage else []
  let hasHighSeverity :=
    ageWarnings.any (fun w => w.severity == "high".toList)
      || dosageAlerts.any (fun a => a.severity == "high".toList || a.severity == "critical".toList)
  let overallSeverity :=
    if hasHighSeverity then "high".toList
    else if foodInteractions.hasFoodInteraction || !ageWarnings.isEmpty then "moderate".toList
    else "low".toList
  { drugName := drugName
    foodInteractions := foodInteractions
    ageWarnings := ageWarnings
    dosageAlerts := dosageAlerts
    overallSeverity := overallSeverity }

/-!
## Drug name validator (drugService.validateAndNormalizeDrugName)

The RxNorm HTTP endpoints are modelled by an environment of pure functions:
`exact` models `lookupDrug` (which catches its own network errors, so its
result is a plain `Option`: `none` covers both "not found" and a failed
request), and `approx` models the `approximateTerm.json` call, whose
`Except` error case is the validator's own `catch` branch.
-/

/-- A concept as returned by `lookupDrug` (name and RxCUI). -/
structure Concept where
  name : Str
  rxcui : Str
deriving DecidableEq

/-- A candidate of the approximate-spelling search. -/
structure ApproxCand where
  name : Str
  rxcui : Option Str
deriving DecidableEq

/-- Environment for the validator's two terminology-service calls. -/
structure ValidatorEnv where
  exact : Str → Option (List Concept)
  approx : Str → Except Unit (List ApproxCand)

/-- The result object of `validateAndNormalizeDrugName`.  Properties absent
from some of the source's return objects (`rxcui`, `wasCorrected`,
`suggestions`) default to `none` / `false` / `[]`. -/
structure ValidationResult where
  valid : Bool
  originalName : Str
  correctedName : Option Str
  confidence : ℚ
  rxcui : Option Str
  wasCorrected : Bool
  suggestions : List Str
deriving DecidableEq

/-- The edit distance computed for one candidate: the source lowercases both
strings before calling `levenshteinDistance`. -/
def candDist (input : Str) (c : ApproxCand) : ℕ :=
  levenshteinDistance (lowerStr input) (lowerStr c.name)

/-- The similarity score of one candidate:
`1 - distance / max(input.length, candidate.length)` (lengths of the original
strings; lowercasing preserves length). -/
def candSim (input : Str) (c : ApproxCand) : ℚ :=
  1 - (candDist input c : ℚ) / ((max input.length c.name.length : ℕ) : ℚ)

/-- The source's acceptance test `similarity > 0.6`, as the equivalent
integer comparison `5 * distance < 2 * max(len₁, len₂)` (for a positive
maximal length, `0.6 < 1 - d/m ↔ 5*d < 2*m`; the maximal length is zero only
when input and candidate are both empty, a case the surrounding guards make
unreachable and on which JavaScript's `NaN > 0.6` is also false).
`simAccept_iff` below certifies the equivalence. -/
def simAccept (input : Str) (c : ApproxCand) : Bool :=
  5 * candDist input c < 2 * max input.length c.name.length

/-- The running best match of the candidate scan. -/
structure BestMatch where
  name : Str
  rxcui : Option Str
  confidence : ℚ
deriving DecidableEq

/-- `distance < bestScore`, where `none` is the initial `Infinity`. -/
def beatsBest (d : ℕ) : Option ℕ → Bool
  | none => true
  | some b => d < b

/-- One iteration of the candidate loop: skip empty (falsy) names, and accept
a candidate when its distance beats the best score so far and its similarity
exceeds `0.6`. -/
def scanStep (input : Str) (st : Option BestMatch × Option ℕ) (c : ApproxCand) :
    Option BestMatch × Option ℕ :=
  if c.name.isEmpty then st
  else if beatsBest (candDist input c) st.2 && simAccept input c then
    (some { name := c.name, rxcui := c.rxcui, confidence := candSim input c },
     some (candDist input c))
  else st

/-- `validateAndNormalizeDrugName(drugName)` over a `ValidatorEnv`. -/
def validateAndNormalizeDrugName (env : ValidatorEnv) (drugName : Str) : ValidationResult :=
  if drugName.isEmpty || drugName = sentinel then
    { valid := false, originalName := drugName, correctedName := none, confidence := 0
      rxcui := none, wasCorrected := false, suggestions := [] }
  else
    match env.exact drugName with
    | some (c :: _) =>
      { valid := true, originalName := drugName, correctedName := some c.name, confidence := 1
        rxcui := some c.rxcui, wasCorrected := false, suggestions := [] }
    | _ =>
      match env.approx drugName with
      | .error _ =>
        { valid := false, originalName := drugName, correctedName := none, confidence := 0
          rxcui := none, wasCorrected := false, suggestions := [] }
      | .ok candidates =>
        match (candidates.foldl (scanStep drugName) (none, none)).1 with
        | some best =>
          { valid := true, originalName := drugName, correctedName := some best.name
            confidence := best.confidence, rxcui := best.rxcui, wasCorrected := true
            suggestions := [] }
        | none =>
          { valid := false, originalName := drugName, correctedName := none, confidence := 0
            rxcui := none, wasCorrected := false
            suggestions := ((candidates.take 3).map (fun c => c.name)).filter
              (fun n => !n.isEmpty) }

/-!
## Interaction checker (drugService.checkInteractions)
-/

/-- One `interactionPair` of the pairwise `interaction.json` response.
Optional JSON properties are `Option`-valued. -/
structure PairItem where
  conceptNames : Option (List Str)
  severity : Option Str
  description : Option Str
deriving DecidableEq

/-- One `interactionPair` of the multi-drug `list.json` response. -/
structure ListPair where
  conceptNames : Option (List Str)
  description : Option Str
deriving DecidableEq

/-- Environment for the interaction-service calls.  `rxcui` models `getRxCUI`
(which catches its own errors and returns `null`); the two interaction
endpoints may throw, which the `Except` error case records.  `none` inside a
successful response models a missing `interactionTypeGroup` /
`fullInteractionTypeGroup` property. -/
structure InterEnv where
  rxcui : Str → Option Str
  pairsOf : Str → Except Unit (Option (List PairItem))
  listOf : List Str → Except Unit (Option (List ListPair))

/-- The findings built from the pairwise response: tier 1 for severity `high`
or a description mentioning `life-threatening`, tier 2 for `moderate` /
`medium`, else tier 3. -/
def pairFindings (drugName : Str) (groups : Option (List PairItem)) : List Finding :=
  match groups with
  | none => []
  | some pairs =>
    pairs.map (fun pair =>
      let interacting := (pair.conceptNames.map (joinWith " + ".toList)).getD []
      let severity := pair.severity.getD "N/A".toList
      let lifeThreatening :=
        match pair.description with
        | none => false
        | some d => strIncludes (lowerStr d) "life-threatening".toList
      let tier : ℕ :=
        if severity = "high".toList || lifeThreatening then 1
        else if severity = "moderate".toList || severity = "medium".toList then 2
        else 3
      { tier := tier
        drug := strOr interacting drugName
        description := pair.description.getD "Interaction detected".toList
        severity := some severity
        recommendation := getRecommendation tier })

/-- The findings built from the multi-drug response: always tier 2. -/
def listFindings (groups : Option (List ListPair)) : List Finding :=
  match groups with
  | none => []
  | some pairs =>
    pairs.map (fun pair =>
      { tier := 2
        drug := strOr ((pair.conceptNames.map (joinWith " + ".toList)).getD []) "Unknown".toList
        description := pair.description.getD "Interaction with current medication".toList
        severity := none
        recommendation := "Consult your physician about this combination.".toList })

/-- The body of `checkInteractions` after a canonical identifier was found;
an `error` result is the thrown exception the `catch` block handles. -/
def checkInteractionsBody (env : InterEnv) (rxcui : Str) (drugName : Str)
    (currentMeds : List Str) : Except Unit (List Finding) := do
  let groups ← env.pairsOf rxcui
  let fromPairs := pairFindings drugName groups
  let fromList ←
    if currentMeds.isEmpty then pure []
    else
      let allRxcuis := rxcui :: currentMeds.filterMap env.rxcui
      if allRxcuis.length > 1 then do
        let lgroups ← env.listOf allRxcuis
        pure (listFindings lgroups)
      else pure []
  pure (fromPairs ++ fromList ++ getDietaryInteractions drugName)

/-- `checkInteractions(drugName, currentMeds)`: a missing canonical
identifier or any thrown service call degrades to the static fallback table;
the function is total, so no failure can escape as an exception. -/
def checkInteractions (env : InterEnv) (drugName : Str) (currentMeds : List Str) :
    List Finding :=
  match env.rxcui drugName with
  | none => getFallbackInteractions drugName currentMeds
  | some rxcui =>
    match checkInteractionsBody env rxcui drugName currentMeds with
    | .ok interactions => interactions
    | .error _ => getFallbackInteractions drugName currentMeds

/-!
## Nudge generator (services/nudgeService.js)
-/

/-- The fields of a patient-facing nudge card; also the shape of the parsed
JSON object returned by the generation backend (a missing JSON field is the
empty, falsy string). -/
structure NudgeCard where
  headline : Str
  plain_instruction : Str
  the_why : Str
  habit_hook : Str
  warning_label : Str
deriving DecidableEq

/-- A medication candidate as extracted from the image
(`extracted_data`), plus the `name_confidence` the pipeline attaches. -/
structure ExtractedData where
  drug_name : Str
  dosage : Str
  frequency : Str
  dose_timing : Str
  dosing_source : Str
  duration : Str
  route : Str
  instructions : Str
  name_confidence : Option ℚ
deriving DecidableEq

/-- The combined text scored by the readability gate:
`[plain_instruction, the_why, habit_hook, headline].filter(Boolean).join(' ')`. -/
def nudgeFullText (json : NudgeCard) : Str :=
  joinWith " ".toList
    ([json.plain_instruction, json.the_why, json.habit_hook, json.headline].filter
      (fun s => !s.isEmpty))

/-- The default warning label used when the JSON one is falsy. -/
def defaultWarning (interactions : List Finding) : Str :=
  if interactions.isEmpty then [] else "May interact with other medications".toList

/-- The card assembled from the parsed JSON before the gate
(`finalCard` in the source). -/
def cardFromJson (json : NudgeCard) (interactions : List Finding) : NudgeCard :=
  { headline := json.headline
    plain_instruction := json.plain_instruction
    the_why := json.the_why
    habit_hook := json.habit_hook
    warning_label := strOr json.warning_label (defaultWarning interactions) }

/-- The example text the placeholder-echo guard looks for. -/
def placeholderHeadline : Str := "Simple instruction based on ACTUAL prescription".toList

/-- The deterministic headline built from verified fields when the backend
echoes the placeholder (or produced no headline). -/
def builtHeadline (extractedData : ExtractedData) : Str :=
  let parts : List Str :=
    (if extractedData.drug_name.isEmpty then [] else
      ["Taking ".toList ++ extractedData.drug_name])
    ++ (if extractedData.dosage.isEmpty then [] else [extractedData.dosage])
    ++ (if extractedData.frequency.isEmpty then [] else
      ["as ".toList ++ extractedData.frequency])
  if parts.isEmpty then "Follow this prescription as your doctor directed".toList
  else joinWith " ".toList parts

/-- Field-wise `simplifyText` of the JSON card, as assigned in the
not-plain branch (note the branch rebuilds from the raw JSON fields, so a
placeholder-guard repair of the headline is discarded). -/
def simplifiedCard (json : NudgeCard) (interactions : List Finding) : NudgeCard :=
  { headline := simplifyText json.headline
    plain_instruction := simplifyText json.plain_instruction
    the_why := simplifyText json.the_why
    habit_hook := simplifyText json.habit_hook
    warning_label := simplifyText (strOr json.warning_label (defaultWarning interactions)) }

/-- The pure tail of `nudgeService.generateCard`, from the parsed backend
JSON to the emitted card: readability gate, placeholder-echo guard, and
automatic simplification when the combined text is not plain. -/
def nudgeFinalCard (json : NudgeCard) (extractedData : ExtractedData)
    (interactions : List Finding) : NudgeCard :=
  let readability := validatePlainLanguage (nudgeFullText json)
  let finalCard := cardFromJson json interactions
  let finalCard :=
    if finalCard.headline.isEmpty || trimStr finalCard.headline = placeholderHeadline then
      { finalCard with headline := builtHeadline extractedData }
    else finalCard
  if !readability.isPlain then simplifiedCard json interactions else finalCard

/-- The minimal card returned when no backend is configured or generation
throws: only the extracted `instructions` field, no invented text. -/
def minimalCard (extractedData : ExtractedData) (interactions : List Finding) : NudgeCard :=
  { headline := extractedData.instructions
    plain_instruction := extractedData.instructions
    the_why := []
    habit_hook := []
    warning_label := defaultWarning interactions }

/-- Environment for one `generateCard` call: whether an API key is
configured, and the parsed JSON of the backend response (`error` covers a
thrown request or a response that fails to parse). -/
structure NudgeGenEnv where
  hasApiKey : Bool
  llmJson : ExtractedData → Except Unit NudgeCard

/-- `nudgeService.generateCard`: throws (`error`) only for a missing or
sentinel drug name; otherwise returns the minimal card (no key, or the
backend call failed) or the gated final card. -/
def generateCard (env : NudgeGenEnv) (extractedData : ExtractedData)
    (interactions : List Finding) : Except Unit NudgeCard :=
  if extractedData.drug_name.isEmpty || extractedData.drug_name = sentinel then
    .error ()
  else if !env.hasApiKey then .ok (minimalCard extractedData interactions)
  else
    match env.llmJson extractedData with
    | .error _ => .ok (minimalCard extractedData interactions)
    | .ok json => .ok (nudgeFinalCard json extractedData interactions)

/-!
## `generateSafetyWarningText` (drugService.js)
-/

/-- JavaScript template interpolation of a possibly-`undefined` value. -/
def jsShow (o : Option Str) : Str := o.getD "undefined".toList

/-- `drugService.generateSafetyWarningText(safetyReport)`. -/
def generateSafetyWarningText (safetyReport : SafetyReport) : Str :=
  let foodLines : List Str :=
    match safetyReport.foodInteractions with
    | { hasFoodInteraction := true, entry := some fi } =>
      ["⚠️ FOOD WARNING: Avoid ".toList ++ joinWith ", ".toList fi.avoid
        ++ ". ".toList ++ jsShow fi.reason ++ ".".toList]
      ++ (match fi.timing with
          | some t => ["⏰ TIMING: ".toList ++ t]
          | none => [])
    | _ => []
  let ageLines : List Str :=
    safetyReport.ageWarnings.flatMap (fun w =>
      ["👵 AGE WARNING: ".toList ++ w.warning]
      ++ (match w.note with
          | some n => ["   Note: ".toList ++ n]
          | none => [])
      ++ (match w.alternatives with
          | some a => ["   ".toList ++ a]
          | none => []))
  let dosageLines : List Str :=
    safetyReport.dosageAlerts.flatMap (fun a =>
      ["💊 DOSAGE ALERT: ".toList ++ a.alert]
      ++ (if a.note.isEmpty then [] else ["   ".toList ++ a.note]))
  joinWith "\n".toList (foodLines ++ ageLines ++ dosageLines)

/-!
## `/api/prescription/process` pipeline (server.js)
-/

/-- The environments of all external services one pipeline run consults. -/
structure PipelineEnv where
  validator : ValidatorEnv
  inter : InterEnv

/-- A processed medication of the success response; the nudge card is
deliberately deferred, so `patient_facing_card` is `none` here. -/
structure ProcessedMed where
  extracted_data : ExtractedData
  patient_facing_card : Option NudgeCard
  safety_flag : Str
  safety_reasoning : Str
  interactions : List Finding
  enhanced_safety : SafetyReport
deriving DecidableEq

/-- A record of the `failedExtractions` list.  The `unclear_name` records of
the source carry no `originalName`/`suggestions` properties; those default to
`none` / `[]`. -/
structure FailedExtraction where
  reason : Str
  originalName : Option Str
  suggestions : List Str
  message : Str
  extractedData : ExtractedData
deriving DecidableEq

/-- Processing of a single extracted medication inside the
`for (const extractedData of visionResult.medications)` loop: the missing /
sentinel-name guard, name validation, the confidence-gated name correction,
the interaction check, the safety flag and the enhanced safety check. -/
def processOne (env : PipelineEnv) (currentMeds : List Str) (patientAge : Option ℕ)
    (m : ExtractedData) : FailedExtraction ⊕ ProcessedMed :=
  if m.drug_name.isEmpty || m.drug_name = sentinel then
    .inl { reason := "unclear_name".toList
           originalName := none
           suggestions := []
           message := "Could not read medication name clearly".toList
           extractedData := m }
  else
    let validation := validateAndNormalizeDrugName env.validator m.drug_name
    if !validation.valid then
      .inl { reason := "invalid_drug".toList
             originalName := some m.drug_name
             suggestions := validation.suggestions
             message := "\"".toList ++ m.drug_name
               ++ "\" is not a recognized medication".toList
             extractedData := m }
    else
      let newName :=
        if validation.wasCorrected then
          if Rat.blt (0.85 : ℚ) validation.confidence then validation.originalName
          else (validation.correctedName.getD [])
        else validation.originalName
      let m' := { m with drug_name := newName, name_confidence := some validation.confidence }
      let interactions := checkInteractions env.inter m'.drug_name currentMeds
      let safetyFlag := determineSafetyFlag interactions
      let enhancedSafety := comprehensiveSafetyCheck m'.drug_name m'.dosage patientAge currentMeds
      .inr { extracted_data := m'
             patient_facing_card := none
             safety_flag := safetyFlag.flag
             safety_reasoning := safetyFlag.reasoning
             interactions := interactions
             enhanced_safety := enhancedSafety }

/-- The loop over all extracted medications, split into the
`processedMedications` and `failedExtractions` lists (push order is the
iteration order, which `filterMap` preserves). -/
def processMeds (env : PipelineEnv) (currentMeds : List Str) (patientAge : Option ℕ)
    (meds : List ExtractedData) : List ProcessedMed × List FailedExtraction :=
  (meds.filterMap (fun m => (processOne env currentMeds patientAge m).getRight?),
   meds.filterMap (fun m => (processOne env currentMeds patientAge m).getLeft?))

/-- The extraction result delivered by the vision / OCR fallback chain
(`visionResult`). -/
structure VisionResult where
  medications : List ExtractedData
  error : Option Str
  note : Option Str
deriving DecidableEq

/-- The body of an error (HTTP 400) response of the pipeline.  A
`failedExtractions` property is attached only when the list is non-empty. -/
structure ErrResp where
  error : Str
  detail : Str
  failedExtractions : Option (List FailedExtraction)
  suggestions : Option Str
deriving DecidableEq

/-- The success payload (`finalResult`). -/
structure FinalResult where
  medications : List ProcessedMed
  total_medications : ℕ
  failedExtractions : Option (List FailedExtraction)
  warnings : Option Str
deriving DecidableEq

/-- The per-request outcome after extraction: the two early error returns of
the handler, or the normalized success payload. -/
def processResponse (env : PipelineEnv) (currentMeds : List Str) (patientAge : Option ℕ)
    (visionResult : VisionResult) : Except ErrResp FinalResult :=
  if visionResult.error.isSome || visionResult.medications.isEmpty then
    .error { error := "Unable to read prescription".toList
             detail := (visionResult.note.getD
               "The prescription image is not clear enough. Please take a clearer photo.".toList)
             failedExtractions := none
             suggestions := none }
  else
    let pr := processMeds env currentMeds patientAge visionResult.medications
    if pr.1.isEmpty then
      .error { error := "Unable to extract medication information".toList
               detail := "Could not read any medication names from the prescription.".toList
               failedExtractions := if pr.2.isEmpty then none else some pr.2
               suggestions := if pr.2.isEmpty then none else
                 some "The prescription image may be unclear. Please try taking a clearer photo with good lighting.".toList }
    else
      .ok { medications := pr.1
            total_medications := pr.1.length
            failedExtractions := if pr.2.isEmpty then none else some pr.2
            warnings := if pr.2.isEmpty then none else
              some (natToStr pr.2.length
                ++ " medication(s) could not be processed. Please verify the extracted information.".toList) }

/-!
## Result cache (server.js: `visionCache`, `scan_sessions`, the
`/api/prescription/process` cache protocol)

Timestamps are in milliseconds, as in `Date.now()`.
-/

/-- `CACHE_TTL = 30 * 60 * 1000` (30 minutes). -/
def CACHE_TTL : ℕ := 30 * 60 * 1000

/-- An entry of the in-memory `visionCache` map. -/
structure MemEntry where
  data : FinalResult
  expiresAt : ℕ
deriving DecidableEq

/-- A row of the durable `scan_sessions` cache table. -/
structure DbRow where
  image_hash : ℕ
  raw_vision_json : VisionResult
  normalized_result : FinalResult
  expires_at : ℕ
deriving DecidableEq

/-- The two cache tiers. -/
structure ServerState where
  mem : List (ℕ × MemEntry)
  db : List DbRow
deriving DecidableEq

/-- `visionCache.get(hash)`. -/
def memGet (st : ServerState) (hash : ℕ) : Option MemEntry :=
  (st.mem.find? (fun kv => kv.1 == hash)).map (fun kv => kv.2)

/-- `visionCache.set(hash, entry)` (a map holds one binding per key). -/
def memSet (st : ServerState) (hash : ℕ) (entry : MemEntry) : ServerState :=
  { st with mem := (hash, entry) :: st.mem.filter (fun kv => kv.1 != hash) }

/-- The durable-tier lookup
(`eq('image_hash', h).gt('expires_at', now).single()`). -/
def dbGet (st : ServerState) (hash : ℕ) (now : ℕ) : Option DbRow :=
  st.db.find? (fun row => row.image_hash == hash && now < row.expires_at)

/-- Everything one `/api/prescription/process` request consults. -/
structure ServerEnv where
  penv : PipelineEnv
  vision : VisionResult
  currentMeds : List Str
  patientAge : Option ℕ

/-- The observable outcome of one request: the HTTP response, the cache
state afterwards, whether extraction work was performed, and whether the
durable tier was queried. -/
structure ReqOutcome where
  response : Except ErrResp FinalResult
  state : ServerState
  didExtract : Bool
  dbRead : Bool

/-- The extraction arm of the handler (cache miss or forced refresh):
run extraction and the per-medication pipeline, and on success write the
normalized result to both cache tiers. -/
def extractAndRespond (st : ServerState) (now : ℕ) (imageHash : ℕ) (env : ServerEnv)
    (dbRead : Bool) : ReqOutcome :=
  match processResponse env.penv env.currentMeds env.patientAge env.vision with
  | .error e => { response := .error e, state := st, didExtract := true, dbRead := dbRead }
  | .ok finalResult =>
    let st := memSet st imageHash { data := finalResult, expiresAt := now + CACHE_TTL }
    let st := { st with
      db := st.db ++ [{ image_hash := imageHash, raw_vision_json := env.vision
                        normalized_result := finalResult, expires_at := now + CACHE_TTL }] }
    { response := .ok finalResult, state := st, didExtract := true, dbRead := dbRead }

/-- One `/api/prescription/process` request: unless `forceRefresh` is set,
try the in-memory tier, then the durable tier (a durable hit is copied into
the in-memory tier); otherwise, and on a double miss, extract. -/
def handleProcess (st : ServerState) (now : ℕ) (imageHash : ℕ) (forceRefresh : Bool)
    (env : ServerEnv) : ReqOutcome :=
  if !forceRefresh then
    match memGet st imageHash with
    | some cached =>
      if now < cached.expiresAt then
        { response := .ok cached.data, state := st, didExtract := false, dbRead := false }
      else
        match dbGet st imageHash now with
        | some row =>
          let st := memSet st imageHash { data := row.normalized_result, expiresAt := now + CACHE_TTL }
          { response := .ok row.normalized_result, state := st, didExtract := false, dbRead := true }
        | none => extractAndRespond st now imageHash env true
    | none =>
      match dbGet st imageHash now with
      | some row =>
        let st := memSet st imageHash { data := row.normalized_result, expiresAt := now + CACHE_TTL }
        { response := .ok row.normalized_result, state := st, didExtract := false, dbRead := true }
      | none => extractAndRespond st now imageHash env true
  else extractAndRespond st now imageHash env false

/-!
## `/api/nudge/generate-batch` handler (server.js)
-/

/-- One element of the confirmed-medication list sent to the batch
endpoint. -/
structure BatchMed where
  extracted_data : ExtractedData
  skipValidation : Bool
deriving DecidableEq

/-- One element of the batch response. -/
structure BatchOutMed where
  extracted_data : ExtractedData
  patient_facing_card : NudgeCard
  interactions : List Finding
  safety_flag : Str
  safety_reasoning : Str
  enhanced_safety : SafetyReport
deriving DecidableEq

/-- The patient context of the batch request (only the age is consulted). -/
structure PatientCtx where
  age : Option ℕ
deriving DecidableEq

/-- One iteration of the batch loop: optional re-validation (the corrected
name is used whenever a correction was made, with no confidence gate), the
interaction check against the other batch names, the enhanced safety check,
nudge generation with its hard-coded fallback card, and the appended safety
warning text.  `none` means the medication is skipped (`continue`) and
contributes nothing to the response. -/
def batchStep (penv : PipelineEnv) (genv : NudgeGenEnv) (pc : PatientCtx)
    (allMedicationNames : List Str) (med : BatchMed) : Option BatchOutMed :=
  let ed := med.extracted_data
  let ed? : Option ExtractedData :=
    if med.skipValidation then some ed
    else
      let validation := validateAndNormalizeDrugName penv.validator ed.drug_name
      if !validation.valid then none
      else if validation.wasCorrected then
        some { ed with drug_name := validation.correctedName.getD [] }
      else some ed
  match ed? with
  | none => none
  | some ed =>
    let others := allMedicationNames.filter (fun name => name ≠ ed.drug_name)
    let interactions := checkInteractions penv.inter ed.drug_name others
    let safetyFlag := determineSafetyFlag interactions
    let enhancedSafety := comprehensiveSafetyCheck ed.drug_name ed.dosage pc.age others
    let nudgeCard :=
      match generateCard genv ed interactions with
      | .ok card =>
        let safetyWarningText := generateSafetyWarningText enhancedSafety
        if safetyWarningText.isEmpty then card
        else
          let joined := joinWith "\n\n".toList
            ([card.warning_label, safetyWarningText].filter (fun s => !s.isEmpty))
          { card with warning_label := joined }
      | .error _ =>
        { headline := "Take ".toList ++ ed.drug_name ++ " as prescribed".toList
          plain_instruction := [], the_why := [], habit_hook := [], warning_label := [] }
    some { extracted_data := ed
           patient_facing_card := nudgeCard
           interactions := interactions
           safety_flag := safetyFlag.flag
           safety_reasoning := safetyFlag.reasoning
           enhanced_safety := enhancedSafety }

/-- The batch response payload: only a `medications` list, with no failure
records of any kind. -/
structure BatchResp where
  medications : List BatchOutMed
deriving DecidableEq

/-- The whole `/api/nudge/generate-batch` handler body:
`allMedicationNames` is computed from the request before the loop, and
medications whose validation fails are silently dropped. -/
def batchProcess (penv : PipelineEnv) (genv : NudgeGenEnv) (pc : PatientCtx)
    (medications : List BatchMed) : BatchResp :=
  let allMedicationNames :=
    (medications.map (fun m => m.extracted_data.drug_name)).filter (fun n => !n.isEmpty)
  { medications := medications.filterMap (batchStep penv genv pc allMedicationNames) }

/-!
## Specification-level predicates
-/

/-- A candidate the scan loop may accept: a non-empty name whose similarity
to the input strictly exceeds `0.6` (stated with the specification's rational
similarity formula). -/
def acceptable (input : Str) (c : ApproxCand) : Prop :=
  c.name ≠ [] ∧ (0.6 : ℚ) < candSim input c

instance (input : Str) (c : ApproxCand) : Decidable (acceptable input c) :=
  inferInstanceAs (Decidable (_ ∧ _))

/-- Invariant of the candidate scan: after processing `seen`, either no
candidate so far was acceptable (and the best score is still `Infinity`), or
the state holds an acceptable candidate of minimal edit distance among the
acceptable ones, together with its score. -/
def scanInv (input : Str) (seen : List ApproxCand) :
    Option BestMatch × Option ℕ → Prop
  | (none, sc) => sc = none ∧ ∀ c ∈ seen, ¬ acceptable input c
  | (some b, sc) => ∃ c ∈ seen, acceptable input c ∧ b.name = c.name ∧ b.rxcui = c.rxcui ∧
      b.confidence = candSim input c ∧ sc = some (candDist input c) ∧
      ∀ c' ∈ seen, acceptable input c' → candDist input c ≤ candDist input c'

/-!
## Sample environments for concrete instantiations
-/

/-- A validator environment with no exact hits and a fixed approximate
candidate list. -/
def approxOnlyEnv (cands : List ApproxCand) : ValidatorEnv :=
  { exact := fun _ => none, approx := fun _ => .ok cands }

/-- A validator environment where every lookup hits the given concept. -/
def exactHitEnv (c : Concept) : ValidatorEnv :=
  { exact := fun _ => some [c], approx := fun _ => .ok [] }

/-- An interaction environment whose canonical-identifier lookup always
fails, forcing the static fallback. -/
def noRxcuiEnv : InterEnv :=
  { rxcui := fun _ => none, pairsOf := fun _ => .error (), listOf := fun _ => .error () }

/-- An interaction environment that resolves identifiers but whose pairwise
interaction call throws. -/
def throwingPairsEnv : InterEnv :=
  { rxcui := fun n => some n, pairsOf := fun _ => .error (), listOf := fun _ => .error () }

/-- The approximate candidate used by the correction-policy witnesses:
`lisinopril`, distance 1 from the misspelling `listnopril`. -/
def lisinoprilCand : ApproxCand := { name := "lisinopril".toList, rxcui := some "29046".toList }

/-- A candidate at distance 1 from the five-letter input `abcdX`, similarity
exactly `0.8 ∈ (0.6, 0.85]`. -/
def midConfCand : ApproxCand := { name := "abcde".toList, rxcui := none }

/-- A bare extracted medication with the given name. -/
def medNamed (name : Str) : ExtractedData :=
  { drug_name := name, dosage := [], frequency := [], dose_timing := [],
    dosing_source := [], duration := [], route := [], instructions := [],
    name_confidence := none }

/-- A candidate at distance 1 from the ten-letter input `abcdefghiX`,
similarity `0.9 > 0.85`. -/
def highConfCand : ApproxCand := { name := "abcdefghij".toList, rxcui := none }

/-- The drug name of a successfully processed medication, if any. -/
def inrName : FailedExtraction ⊕ ProcessedMed → Option Str
  | .inl _ => none
  | .inr p => some p.extracted_data.drug_name

/-- The `failedExtractions` of an error response, if any. -/
def errFailedList : Except ErrResp FinalResult → Option (List FailedExtraction)
  | .error e => e.failedExtractions
  | .ok _ => none

/-- Whether a pipeline response is a success. -/
def respIsOk : Except ErrResp FinalResult → Bool
  | .ok _ => true
  | .error _ => false

/-- A generated card whose only text is the jargon word `renal`: it fails
the readability gate, but the substitution table has no entry for it, so
simplification leaves the jargon in place. -/
def renalJson : NudgeCard :=
  { headline := "renal".toList, plain_instruction := [], the_why := [],
    habit_hook := [], warning_label := [] }

/-- A nudge-generation environment with no API key configured. -/
def noKeyGenEnv : NudgeGenEnv :=
  { hasApiKey := false, llmJson := fun _ => .error () }

/-- A server environment whose vision call finds one `warfarin` line and
whose validator resolves it exactly. -/
def warfarinServerEnv : ServerEnv :=
  { penv := { validator := exactHitEnv { name := "warfarin".toList, rxcui := "11289".toList }
              inter := noRxcuiEnv }
    vision := { medications := [medNamed "warfarin".toList], error := none, note := none }
    currentMeds := []
    patientAge := none }

end DrNudge

/-!
# Theorems
-/

namespace DrNudge

/-- The integer acceptance test of `scanStep` agrees with the source's
`similarity > 0.6` whenever the maximal length is positive. -/
theorem simAccept_iff (input : Str) (c : ApproxCand)
    (hm : 0 < max input.length c.name.length) :
    simAccept input c = true ↔ (0.6 : ℚ) < candSim input c := by
  have hmq : (0 : ℚ) < ((max input.length c.name.length : ℕ) : ℚ) := by exact_mod_cast hm
  unfold simAccept candSim
  rw [decide_eq_true_iff]
  rw [show (0.6 : ℚ) = 3 / 5 by norm_num]
  constructor
  · intro h
    have hq : (candDist input c : ℚ) * 5 < ((max input.length c.name.length : ℕ) : ℚ) * 2 := by
      exact_mod_cast by omega
    have hdiv : (candDist input c : ℚ) / ((max input.length c.name.length : ℕ) : ℚ) < 2 / 5 := by
      rw [div_lt_div_iff₀ hmq (by norm_num)]
      linarith
    linarith
  · intro h
    have hdiv : (candDist input c : ℚ) / ((max input.length c.name.length : ℕ) : ℚ) < 2 / 5 := by
      linarith
    have hq : (candDist input c : ℚ) * 5 < ((max input.length c.name.length : ℕ) : ℚ) * 2 := by
      rw [div_lt_div_iff₀ hmq (by norm_num)] at hdiv
      linarith
    have hq' : candDist input c * 5 < (max input.length c.name.length) * 2 := by
      exact_mod_cast hq
    omega

/-- `scanStep` preserves the scan invariant. -/
theorem scanStep_inv (input : Str) (hin : input ≠ []) (seen : List ApproxCand)
    (st : Option BestMatch × Option ℕ) (c : ApproxCand)
    (h : scanInv input seen st) :
    scanInv input (seen ++ [c]) (scanStep input st c) := by
  have hmax : ∀ c' : ApproxCand, 0 < max input.length c'.name.length := fun c' => by
    have : 0 < input.length := List.length_pos.mpr hin
    omega
  unfold scanStep
  by_cases hempty : c.name.isEmpty
  · simp only [hempty, if_true]
    have hne : ¬ acceptable input c := fun hacc =>
      hacc.1 (List.isEmpty_iff.mp hempty)
    obtain ⟨b, sc⟩ := st
    match b with
    | none =>
      obtain ⟨h1, h2⟩ := h
      exact ⟨h1, fun c' hc' => by
        rcases List.mem_append.mp hc' with hmem | hmem
        · exact h2 c' hmem
        · rw [List.mem_singleton.mp hmem]; exact hne⟩
    | some b =>
      obtain ⟨c₀, hc₀, hacc₀, hn, hr, hcf, hsc, hmin⟩ := h
      exact ⟨c₀, List.mem_append_left _ hc₀, hacc₀, hn, hr, hcf, hsc, fun c' hc' hacc' => by
        rcases List.mem_append.mp hc' with hmem | hmem
        · exact hmin c' hmem hacc'
        · rw [List.mem_singleton.mp hmem] at hacc'; exact absurd hacc' hne⟩
  · simp only [hempty, if_false, Bool.false_eq_true]
    have hcname : c.name ≠ [] := fun hnil => hempty (by simp [hnil])
    by_cases hcond : (beatsBest (candDist input c) st.2 && simAccept input c) = true
    · simp only [hcond, if_true]
      have hsim : (0.6 : ℚ) < candSim input c :=
        (simAccept_iff input c (hmax c)).mp (Bool.and_elim_right hcond)
      have haccc : acceptable input c := ⟨hcname, hsim⟩
      refine ⟨c, List.mem_append_right _ (List.mem_singleton.mpr rfl), haccc,
        rfl, rfl, rfl, rfl, fun c' hc' hacc' => ?_⟩
      rcases List.mem_append.mp hc' with hmem | hmem
      · obtain ⟨b, sc⟩ := st
        match b, h with
        | none, ⟨h1, h2⟩ => exact absurd hacc' (h2 c' hmem)
        | some b, ⟨c₀, hc₀, hacc₀, hn, hr, hcf, hsc, hmin⟩ =>
          have hbeats := Bool.and_elim_left hcond
          rw [hsc] at hbeats
          have hlt : candDist input c < candDist input c₀ := by
            simpa [beatsBest] using hbeats
          exact le_of_lt (lt_of_lt_of_le hlt (hmin c' hmem hacc'))
      · rw [List.mem_singleton.mp hmem]
    · simp only [hcond, if_false, Bool.false_eq_true]
      have hnotboth := hcond
      obtain ⟨b, sc⟩ := st
      match b, h with
      | none, ⟨h1, h2⟩ =>
        subst h1
        refine ⟨rfl, fun c' hc' => ?_⟩
        rcases List.mem_append.mp hc' with hmem | hmem
        · exact h2 c' hmem
        · rw [List.mem_singleton.mp hmem]
          intro hacc'
          have : simAccept input c = true := (simAccept_iff input c (hmax c)).mpr hacc'.2
          simp [beatsBest, this] at hnotboth
      | some b, ⟨c₀, hc₀, hacc₀, hn, hr, hcf, hsc, hmin⟩ =>
        refine ⟨c₀, List.mem_append_left _ hc₀, hacc₀, hn, hr, hcf, hsc,
          fun c' hc' hacc' => ?_⟩
        rcases List.mem_append.mp hc' with hmem | hmem
        · exact hmin c' hmem hacc'
        · rw [List.mem_singleton.mp hmem] at hacc' ⊢
          have hsimc : simAccept input c = true := (simAccept_iff input c (hmax c)).mpr hacc'.2
          subst hsc
          have : ¬ candDist input c < candDist input c₀ := by
            intro hlt
            simp [beatsBest, hlt, hsimc] at hnotboth
          omega

/-- The scan invariant holds after folding any candidate list. -/
theorem scanFold_inv (input : Str) (hin : input ≠ []) :
    ∀ (l seen : List ApproxCand) (st : Option BestMatch × Option ℕ),
      scanInv input seen st →
      scanInv input (seen ++ l) (l.foldl (scanStep input) st) := by
  intro l
  induction l with
  | nil => intro seen st h; simpa using h
  | cons c t ih =>
    intro seen st h
    have h' := scanStep_inv input hin seen st c h
    have := ih (seen ++ [c]) (scanStep input st c) h'
    simpa [List.append_assoc] using this

/-- Case characterization of `determineSafetyFlag`: the flag only depends on
whether a tier-1 or tier-2 finding is present. -/
theorem determineSafetyFlag_flag_cases (l : List Finding) :
    (determineSafetyFlag l).flag =
      (if ∃ f ∈ l, f.tier = 1 then "RED".toList
       else if ∃ f ∈ l, f.tier = 2 then "YELLOW".toList
       else "GREEN".toList) := by
  by_cases he : l = []
  · subst he; simp [determineSafetyFlag]
  · have he' : l.isEmpty = false := by simpa [List.isEmpty_iff] using he
    simp only [determineSafetyFlag, he', Bool.false_eq_true, if_false]
    simp only [List.any_eq_true, beq_iff_eq]
    by_cases h1 : ∃ f ∈ l, f.tier = 1 <;> by_cases h2 : ∃ f ∈ l, f.tier = 2 <;>
      simp [h1, h2]

/-- C1.  `determineSafetyFlag` is a priority reduction over finding tiers:
`RED` iff some tier-1 finding exists, `YELLOW` iff no tier-1 but some tier-2
exists, `GREEN` otherwise (in particular on the empty list and on
tier-3-only lists); and prepending a tier-1 finding never lowers the flag. -/
theorem determineSafetyFlag_spec (l : List Finding) :
    ((determineSafetyFlag l).flag = "RED".toList ↔ ∃ f ∈ l, f.tier = 1)
    ∧ ((determineSafetyFlag l).flag = "YELLOW".toList ↔
        ((¬ ∃ f ∈ l, f.tier = 1) ∧ ∃ f ∈ l, f.tier = 2))
    ∧ ((determineSafetyFlag l).flag = "GREEN".toList ↔
        ((¬ ∃ f ∈ l, f.tier = 1) ∧ ¬ ∃ f ∈ l, f.tier = 2))
    ∧ ∀ f : Finding, f.tier = 1 →
        flagRank (determineSafetyFlag l).flag ≤
          flagRank (determineSafetyFlag (f :: l)).flag := by
  have hRY : ("RED".toList : Str) ≠ "YELLOW".toList := by decide
  have hRG : ("RED".toList : Str) ≠ "GREEN".toList := by decide
  have hYG : ("YELLOW".toList : Str) ≠ "GREEN".toList := by decide
  refine ⟨?_, ?_, ?_, ?_⟩
  · rw [determineSafetyFlag_flag_cases l]
    by_cases h1 : ∃ f ∈ l, f.tier = 1 <;> by_cases h2 : ∃ f ∈ l, f.tier = 2 <;>
      simp [h1, h2, hRY, hRG, Ne.symm hRY, Ne.symm hRG]
  · rw [determineSafetyFlag_flag_cases l]
    by_cases h1 : ∃ f ∈ l, f.tier = 1 <;> by_cases h2 : ∃ f ∈ l, f.tier = 2 <;>
      simp [h1, h2, hRY, hYG, Ne.symm hRY, Ne.symm hYG]
  · rw [determineSafetyFlag_flag_cases l]
    by_cases h1 : ∃ f ∈ l, f.tier = 1 <;> by_cases h2 : ∃ f ∈ l, f.tier = 2 <;>
      simp [h1, h2, hRG, hYG, Ne.symm hRG, Ne.symm hYG]
  · intro f hf
    have hcons : (determineSafetyFlag (f :: l)).flag = "RED".toList := by
      rw [determineSafetyFlag_flag_cases (f :: l),
        if_pos ⟨f, List.mem_cons_self f l, hf⟩]
    rw [hcons, show flagRank "RED".toList = 2 from by decide]
    rw [determineSafetyFlag_flag_cases l]
    by_cases h1 : ∃ g ∈ l, g.tier = 1 <;> by_cases h2 : ∃ g ∈ l, g.tier = 2 <;>
      simp [h1, h2, flagRank]

/-- C3.  Behaviour of the drug-name validator: an exact terminology hit
returns confidence `1.0`, not marked corrected; otherwise, among the
approximate-search candidates, exactly those with similarity
`1 - distance/max(len(input), len(candidate))` strictly above `0.6` are
acceptable, the accepted one has the lowest edit distance among them and is
returned with `wasCorrected = true` and its similarity as confidence; if no
candidate is acceptable the result is invalid with at most 3 suggestions
(the candidate scoring lowercases both strings before computing the
distance, as the source does). -/
theorem validateAndNormalizeDrugName_spec (env : ValidatorEnv) (name : Str)
    (hne : name ≠ []) (hns : name ≠ sentinel) :
    (∀ c cs, env.exact name = some (c :: cs) →
       validateAndNormalizeDrugName env name =
         { valid := true, originalName := name, correctedName := some c.name,
           confidence := 1, rxcui := some c.rxcui, wasCorrected := false,
           suggestions := [] })
    ∧ (∀ cands, (env.exact name = none ∨ env.exact name = some []) →
        env.approx name = .ok cands →
        ((∃ c ∈ cands, acceptable name c) →
           ∃ c ∈ cands, acceptable name c ∧
             validateAndNormalizeDrugName env name =
               { valid := true, originalName := name, correctedName := some c.name,
                 confidence := candSim name c, rxcui := c.rxcui, wasCorrected := true,
                 suggestions := [] } ∧
             ∀ c' ∈ cands, acceptable name c' → candDist name c ≤ candDist name c')
        ∧ ((∀ c ∈ cands, ¬ acceptable name c) →
           validateAndNormalizeDrugName env name =
             { valid := false, originalName := name, correctedName := none,
               confidence := 0, rxcui := none, wasCorrected := false,
               suggestions := ((cands.take 3).map (fun c => c.name)).filter
                 (fun n => !n.isEmpty) } ∧
           (((cands.take 3).map (fun c => c.name)).filter
             (fun n => !n.isEmpty)).length ≤ 3)) := by
  have hE : name.isEmpty = false := by simpa [List.isEmpty_iff] using hne
  have hcond : (name.isEmpty || decide (name = sentinel)) = false := by
    simp [hE, hns]
  constructor
  · intro c cs hx
    unfold validateAndNormalizeDrugName
    rw [hcond]
    simp only [Bool.false_eq_true, if_false]
    rw [hx]
  · intro cands hexact happrox
    have hinv0 : scanInv name ([] : List ApproxCand) (none, none) := ⟨rfl, by simp⟩
    have hinv : scanInv name cands (cands.foldl (scanStep name) (none, none)) := by
      simpa using scanFold_inv name hne cands [] (none, none) hinv0
    have hval : validateAndNormalizeDrugName env name =
        (match (cands.foldl (scanStep name) (none, none)).1 with
         | some best =>
           { valid := true, originalName := name, correctedName := some best.name,
             confidence := best.confidence, rxcui := best.rxcui, wasCorrected := true,
             suggestions := [] }
         | none =>
           { valid := false, originalName := name, correctedName := none, confidence := 0,
             rxcui := none, wasCorrected := false,
             suggestions := ((cands.take 3).map (fun c => c.name)).filter
               (fun n => !n.isEmpty) }) := by
      unfold validateAndNormalizeDrugName
      rw [hcond]
      simp only [Bool.false_eq_true, if_false]
      rcases hexact with hx | hx <;> rw [hx] <;> rw [happrox]
    rcases hp : cands.foldl (scanStep name) (none, none) with ⟨r1, r2⟩
    rw [hp] at hinv hval
    constructor
    · intro hex
      rcases r1 with _ | b
      · exfalso
        obtain ⟨c, hc, hacc⟩ := hex
        obtain ⟨-, hall⟩ := hinv
        exact hall c hc hacc
      · obtain ⟨c₀, hc₀, hacc₀, hn, hrx, hcf, -, hmin⟩ := hinv
        refine ⟨c₀, hc₀, hacc₀, ?_, hmin⟩
        dsimp only at hval
        rw [hval, hn, hrx, hcf]
    · intro hnone
      rcases r1 with _ | b
      · obtain ⟨-, -⟩ := hinv
        dsimp only at hval
        refine ⟨hval, ?_⟩
        have h1 := List.length_filter_le (fun n => !n.isEmpty)
          ((cands.take 3).map (fun c => c.name))
        have h2 : ((cands.take 3).map (fun c => c.name)).length = (cands.take 3).length :=
          List.length_map _ _
        have h3 : (cands.take 3).length ≤ 3 := by
          rw [List.length_take]; omega
        omega
      · exfalso
        obtain ⟨c₀, hc₀, hacc₀, -⟩ := hinv
        exact (hnone c₀ hc₀) hacc₀

/-- Shape of any validator result: the original name is echoed back, and a
corrected result is valid and carries an acceptable approximate candidate's
name and similarity. -/
theorem validator_shape (env : ValidatorEnv) (name : Str) :
    (validateAndNormalizeDrugName env name).originalName = name ∧
    ((validateAndNormalizeDrugName env name).wasCorrected = true →
      (validateAndNormalizeDrugName env name).valid = true ∧
      name ≠ [] ∧
      ∃ cands c, env.approx name = .ok cands ∧ c ∈ cands ∧
        (validateAndNormalizeDrugName env name).correctedName = some c.name ∧
        (validateAndNormalizeDrugName env name).confidence = candSim name c ∧
        acceptable name c) := by
  unfold validateAndNormalizeDrugName
  by_cases hg : (name.isEmpty || decide (name = sentinel)) = true
  · rw [if_pos hg]
    exact ⟨rfl, fun hw => by simp at hw⟩
  · rw [if_neg hg]
    have hne : name ≠ [] := by
      intro h
      exact hg (by simp [h])
    rcases hx : env.exact name with _ | cl
    · dsimp only
      rcases happ : env.approx name with e | cands
      · exact ⟨rfl, fun hw => by simp at hw⟩
      · dsimp only
        have hinv : scanInv name cands (cands.foldl (scanStep name) (none, none)) := by
          simpa using scanFold_inv name hne cands [] (none, none) ⟨rfl, by simp⟩
        rcases hp : cands.foldl (scanStep name) (none, none) with ⟨r1, r2⟩
        rw [hp] at hinv
        dsimp only
        rcases r1 with _ | b
        · exact ⟨rfl, fun hw => by simp at hw⟩
        · obtain ⟨c₀, hc₀, hacc₀, hn, hrx, hcf, -, -⟩ := hinv
          refine ⟨rfl, fun _ => ⟨rfl, hne, cands, c₀, rfl, hc₀, ?_, ?_, hacc₀⟩⟩
          · dsimp only; rw [hn]
          · dsimp only; rw [hcf]
    · rcases cl with _ | ⟨c, cs⟩
      · dsimp only
        rcases happ : env.approx name with e | cands
        · exact ⟨rfl, fun hw => by simp at hw⟩
        · dsimp only
          have hinv : scanInv name cands (cands.foldl (scanStep name) (none, none)) := by
            simpa using scanFold_inv name hne cands [] (none, none) ⟨rfl, by simp⟩
          rcases hp : cands.foldl (scanStep name) (none, none) with ⟨r1, r2⟩
          rw [hp] at hinv
          dsimp only
          rcases r1 with _ | b
          · exact ⟨rfl, fun hw => by simp at hw⟩
          · obtain ⟨c₀, hc₀, hacc₀, hn, hrx, hcf, -, -⟩ := hinv
            refine ⟨rfl, fun _ => ⟨rfl, hne, cands, c₀, rfl, hc₀, ?_, ?_, hacc₀⟩⟩
            · dsimp only; rw [hn]
            · dsimp only; rw [hcf]
      · exact ⟨rfl, fun hw => by simp at hw⟩

/-- C2.  The extraction pipeline's confidence-gated correction: for a
medication whose name validation returned a correction, a confidence
strictly above `0.85` keeps the original extracted spelling, while a
confidence in `(0.6, 0.85]` replaces it with the corrected candidate name. -/
theorem processOne_correction_policy (env : PipelineEnv) (currentMeds : List Str)
    (patientAge : Option ℕ) (m : ExtractedData)
    (h1 : m.drug_name ≠ []) (h2 : m.drug_name ≠ sentinel)
    (hw : (validateAndNormalizeDrugName env.validator m.drug_name).wasCorrected = true) :
    ∃ p, processOne env currentMeds patientAge m = .inr p ∧
      ((0.85 : ℚ) < (validateAndNormalizeDrugName env.validator m.drug_name).confidence →
        p.extracted_data.drug_name = m.drug_name) ∧
      (((0.6 : ℚ) < (validateAndNormalizeDrugName env.validator m.drug_name).confidence ∧
          (validateAndNormalizeDrugName env.validator m.drug_name).confidence ≤ (0.85 : ℚ)) →
        some p.extracted_data.drug_name =
          (validateAndNormalizeDrugName env.validator m.drug_name).correctedName) := by
  obtain ⟨horig, hshape⟩ := validator_shape env.validator m.drug_name
  obtain ⟨hvalid, -, -, c, -, -, hcorr, -, -⟩ := hshape hw
  have hE : m.drug_name.isEmpty = false := by simpa [List.isEmpty_iff] using h1
  have hguard : (m.drug_name.isEmpty || decide (m.drug_name = sentinel)) = false := by
    simp [hE, h2]
  unfold processOne
  rw [hguard]
  simp only [Bool.false_eq_true, if_false]
  rw [hvalid]
  simp only [Bool.not_true, Bool.false_eq_true, if_false]
  rw [hw]
  simp only [if_true]
  refine ⟨_, rfl, ?_, ?_⟩
  · intro hgt
    have hblt : Rat.blt (0.85 : ℚ)
        (validateAndNormalizeDrugName env.validator m.drug_name).confidence = true := hgt
    dsimp only
    rw [if_pos hblt]
    exact horig
  · rintro ⟨-, hle⟩
    have hblt : Rat.blt (0.85 : ℚ)
        (validateAndNormalizeDrugName env.validator m.drug_name).confidence = false := by
      cases hb : Rat.blt (0.85 : ℚ)
        (validateAndNormalizeDrugName env.validator m.drug_name).confidence
      · rfl
      · exact absurd (hb :
          (0.85 : ℚ) < (validateAndNormalizeDrugName env.validator m.drug_name).confidence)
          (not_lt.mpr hle)
    dsimp only
    rw [if_neg (by rw [hblt]; exact Bool.false_ne_true)]
    rw [hcorr]
    rfl

section
attribute [local semireducible] Rat.mul Rat.add Rat.sub Rat.inv Rat.ofScientific

/-- Witness for C3: the misspelling `listnopril` with the single approximate
candidate `lisinopril` (distance 1, similarity `0.9 > 0.6`) is corrected. -/
theorem validateAndNormalizeDrugName_spec_witness :
    (validateAndNormalizeDrugName (approxOnlyEnv [lisinoprilCand])
      "listnopril".toList).wasCorrected = true ∧
    (validateAndNormalizeDrugName (approxOnlyEnv [lisinoprilCand])
      "listnopril".toList).correctedName = some "lisinopril".toList := by
  obtain ⟨c, hc, hacc, heq, hmin⟩ :=
    ((validateAndNormalizeDrugName_spec (approxOnlyEnv [lisinoprilCand])
        "listnopril".toList (by decide) (by decide)).2
      [lisinoprilCand] (Or.inl rfl) rfl).1
      ⟨lisinoprilCand, List.mem_singleton.mpr rfl, by decide⟩
  rw [List.mem_singleton] at hc
  subst hc
  rw [heq]
  exact ⟨rfl, rfl⟩

/-- Witness for C2: the input `abcdX` is corrected to the candidate `abcde`
(similarity exactly `0.8 ∈ (0.6, 0.85]`), so the pipeline output carries the
corrected name. -/
theorem processOne_correction_policy_witness :
    inrName (processOne { validator := approxOnlyEnv [midConfCand], inter := noRxcuiEnv }
      [] none (medNamed "abcdX".toList)) = some "abcde".toList := by
  obtain ⟨p, hp, -, hcorr⟩ :=
    processOne_correction_policy
      { validator := approxOnlyEnv [midConfCand], inter := noRxcuiEnv }
      [] none (medNamed "abcdX".toList) (by decide) (by decide) (by decide)
  have h := hcorr ⟨by decide, by decide⟩
  rw [hp]
  show some p.extracted_data.drug_name = some "abcde".toList
  rw [h]
  decide

end

theorem sum_getRight?_eq_some {α β : Type} (x : α ⊕ β) (b : β) :
    x.getRight? = some b ↔ x = .inr b := by
  cases x <;> simp

theorem sum_getLeft?_eq_some {α β : Type} (x : α ⊕ β) (a : α) :
    x.getLeft? = some a ↔ x = .inl a := by
  cases x <;> simp

/-- Membership in the processed list of `processMeds`. -/
theorem mem_processMeds_fst (penv : PipelineEnv) (cm : List Str) (age : Option ℕ)
    (meds : List ExtractedData) (p : ProcessedMed) :
    p ∈ (processMeds penv cm age meds).1 ↔
      ∃ m ∈ meds, processOne penv cm age m = .inr p := by
  unfold processMeds
  rw [List.mem_filterMap]
  constructor
  · rintro ⟨m, hm, hp⟩
    exact ⟨m, hm, (sum_getRight?_eq_some _ _).mp hp⟩
  · rintro ⟨m, hm, hp⟩
    exact ⟨m, hm, (sum_getRight?_eq_some _ _).mpr hp⟩

/-- Membership in the failed list of `processMeds`. -/
theorem mem_processMeds_snd (penv : PipelineEnv) (cm : List Str) (age : Option ℕ)
    (meds : List ExtractedData) (f : FailedExtraction) :
    f ∈ (processMeds penv cm age meds).2 ↔
      ∃ m ∈ meds, processOne penv cm age m = .inl f := by
  unfold processMeds
  rw [List.mem_filterMap]
  constructor
  · rintro ⟨m, hm, hp⟩
    exact ⟨m, hm, (sum_getLeft?_eq_some _ _).mp hp⟩
  · rintro ⟨m, hm, hp⟩
    exact ⟨m, hm, (sum_getLeft?_eq_some _ _).mpr hp⟩

/-- Shape of a failure record produced by `processOne`: it carries the
original extracted data, and when the name itself was readable, the failure
came from validation and carries the validator's suggestions. -/
theorem processOne_inl_shape (penv : PipelineEnv) (cm : List Str) (age : Option ℕ)
    (m : ExtractedData) (f : FailedExtraction)
    (h : processOne penv cm age m = .inl f) :
    f.extractedData = m ∧
    (m.drug_name ≠ [] → m.drug_name ≠ sentinel →
      f.suggestions = (validateAndNormalizeDrugName penv.validator m.drug_name).suggestions ∧
      (validateAndNormalizeDrugName penv.validator m.drug_name).valid = false) := by
  by_cases hg : (m.drug_name.isEmpty || decide (m.drug_name = sentinel)) = true
  · unfold processOne at h
    rw [if_pos hg] at h
    obtain rfl := (Sum.inl.inj h).symm
    refine ⟨rfl, fun h1 h2 => absurd hg ?_⟩
    have hE : m.drug_name.isEmpty = false := by simpa [List.isEmpty_iff] using h1
    simp [hE, h2]
  · have h1 : m.drug_name ≠ [] := by
      intro hh; exact hg (by simp [hh])
    unfold processOne at h
    rw [if_neg hg] at h
    dsimp only at h
    by_cases hval : (validateAndNormalizeDrugName penv.validator m.drug_name).valid = true
    · rw [hval] at h
      simp only [Bool.not_true, Bool.false_eq_true, if_false] at h
      exact absurd h (by simp)
    · have hval' : (validateAndNormalizeDrugName penv.validator m.drug_name).valid = false :=
        Bool.eq_false_iff.mpr hval
      rw [hval'] at h
      simp only [Bool.not_false, if_true] at h
      obtain rfl := (Sum.inl.inj h).symm
      exact ⟨rfl, fun _ _ => ⟨rfl, hval'⟩⟩

/-- Name guarantees of a successfully processed medication: assuming the
terminology service never returns the sentinel as a candidate name, the
output drug name is non-empty, differs from the sentinel, and its validation
succeeded. -/
theorem processOne_inr_name (penv : PipelineEnv) (cm : List Str) (age : Option ℕ)
    (m : ExtractedData) (p : ProcessedMed)
    (henv : ∀ n cands, penv.validator.approx n = .ok cands → ∀ c ∈ cands, c.name ≠ sentinel)
    (h : processOne penv cm age m = .inr p) :
    p.extracted_data.drug_name ≠ [] ∧ p.extracted_data.drug_name ≠ sentinel ∧
    (validateAndNormalizeDrugName penv.validator m.drug_name).valid = true := by
  by_cases hg : (m.drug_name.isEmpty || decide (m.drug_name = sentinel)) = true
  · unfold processOne at h
    rw [if_pos hg] at h
    exact absurd h (by simp)
  · have h1 : m.drug_name ≠ [] := by
      intro hh; exact hg (by simp [hh])
    have h2 : m.drug_name ≠ sentinel := by
      intro hh; exact hg (by simp [hh])
    unfold processOne at h
    rw [if_neg hg] at h
    dsimp only at h
    obtain ⟨horig, hshape⟩ := validator_shape penv.validator m.drug_name
    by_cases hval : (validateAndNormalizeDrugName penv.validator m.drug_name).valid = true
    · rw [hval] at h
      simp only [Bool.not_true, Bool.false_eq_true, if_false] at h
      obtain rfl := (Sum.inr.inj h).symm
      refine ⟨?_, ?_, hval⟩ <;>
      · dsimp only
        by_cases hw : (validateAndNormalizeDrugName penv.validator m.drug_name).wasCorrected = true
        · obtain ⟨-, -, cands, c, happ, hc, hcorr, -, hacc⟩ := hshape hw
          rw [hw]
          simp only [if_true]
          rcases hblt : Rat.blt (0.85 : ℚ)
              (validateAndNormalizeDrugName penv.validator m.drug_name).confidence with _ | _
          · simp only [Bool.false_eq_true, if_false]
            rw [hcorr]
            first
            | exact hacc.1
            | exact henv _ cands happ c hc
          · simp only [if_true]
            rw [horig]
            first
            | exact h1
            | exact h2
        · have hw' : (validateAndNormalizeDrugName penv.validator m.drug_name).wasCorrected = false :=
            Bool.eq_false_iff.mpr hw
          rw [hw']
          simp only [Bool.false_eq_true, if_false]
          rw [horig]
          first
          | exact h1
          | exact h2
    · have hval' : (validateAndNormalizeDrugName penv.validator m.drug_name).valid = false :=
        Bool.eq_false_iff.mpr hval
      rw [hval'] at h
      simp only [Bool.not_false, if_true] at h
      exact absurd h (by simp)

/-- C5.  Pipeline invariant: assuming the terminology service never returns
the sentinel as an approximate candidate, (1) every medication of a success
response has a non-empty, non-sentinel drug name whose validation succeeded;
(2) every candidate that fails the guard or validation lands in the
`failedExtractions` list with its original data, and with the validator's
suggestions when validation itself rejected it; (3) when no candidate
validates (and the extraction stage itself succeeded), the caller gets an
error response carrying the non-empty failure list, not an empty success. -/
theorem pipeline_success_invariant (penv : PipelineEnv) (cm : List Str) (age : Option ℕ)
    (vr : VisionResult)
    (henv : ∀ n cands, penv.validator.approx n = .ok cands → ∀ c ∈ cands, c.name ≠ sentinel) :
    (∀ r, processResponse penv cm age vr = .ok r →
      ∀ p ∈ r.medications,
        p.extracted_data.drug_name ≠ [] ∧
        p.extracted_data.drug_name ≠ sentinel ∧
        ∃ m ∈ vr.medications, processOne penv cm age m = .inr p ∧
          (validateAndNormalizeDrugName penv.validator m.drug_name).valid = true)
    ∧ (∀ m ∈ vr.medications, ∀ f, processOne penv cm age m = .inl f →
        f ∈ (processMeds penv cm age vr.medications).2 ∧
        f.extractedData = m ∧
        (m.drug_name ≠ [] → m.drug_name ≠ sentinel →
          f.suggestions = (validateAndNormalizeDrugName penv.validator m.drug_name).suggestions))
    ∧ (vr.error = none → vr.medications ≠ [] →
        (processMeds penv cm age vr.medications).1 = [] →
        processResponse penv cm age vr =
          .error { error := "Unable to extract medication information".toList
                   detail := "Could not read any medication names from the prescription.".toList
                   failedExtractions := some (processMeds penv cm age vr.medications).2
                   suggestions := some "The prescription image may be unclear. Please try taking a clearer photo with good lighting.".toList } ∧
        (processMeds penv cm age vr.medications).2 ≠ []) := by
  refine ⟨?_, ?_, ?_⟩
  · intro r hr p hp
    have hmeds : r.medications = (processMeds penv cm age vr.medications).1 := by
      unfold processResponse at hr
      by_cases hg : (vr.error.isSome || vr.medications.isEmpty) = true
      · rw [if_pos hg] at hr
        exact absurd hr (by simp)
      · rw [if_neg hg] at hr
        dsimp only at hr
        by_cases hz : (processMeds penv cm age vr.medications).1.isEmpty = true
        · rw [if_pos hz] at hr
          exact absurd hr (by simp)
        · rw [if_neg hz] at hr
          obtain rfl := (Except.ok.inj hr).symm
          rfl
    rw [hmeds] at hp
    obtain ⟨m, hm, hone⟩ := (mem_processMeds_fst penv cm age vr.medications p).mp hp
    obtain ⟨hn1, hn2, hv⟩ := processOne_inr_name penv cm age m p henv hone
    exact ⟨hn1, hn2, m, hm, hone, hv⟩
  · intro m hm f hf
    obtain ⟨hdata, hsugg⟩ := processOne_inl_shape penv cm age m f hf
    refine ⟨(mem_processMeds_snd penv cm age vr.medications f).mpr ⟨m, hm, hf⟩, hdata,
      fun h1 h2 => (hsugg h1 h2).1⟩
  · intro herr hne hempty
    have hfail : (processMeds penv cm age vr.medications).2 ≠ [] := by
      rcases hml : vr.medications with _ | ⟨m, rest⟩
      · exact absurd hml hne
      · rcases hone : processOne penv cm age m with f | p
        · intro hnil
          have : f ∈ (processMeds penv cm age vr.medications).2 :=
            (mem_processMeds_snd penv cm age vr.medications f).mpr
              ⟨m, by rw [hml]; exact List.mem_cons_self m rest, hone⟩
          rw [hml, hnil] at this
          exact List.not_mem_nil f this
        · exfalso
          have : p ∈ (processMeds penv cm age vr.medications).1 :=
            (mem_processMeds_fst penv cm age vr.medications p).mpr
              ⟨m, by rw [hml]; exact List.mem_cons_self m rest, hone⟩
          rw [hempty] at this
          exact List.not_mem_nil p this
    have hg : (vr.error.isSome || vr.medications.isEmpty) = false := by
      have hE : vr.medications.isEmpty = false := by simpa [List.isEmpty_iff] using hne
      simp [herr, hE]
    have hz : (processMeds penv cm age vr.medications).1.isEmpty = true := by
      simp [List.isEmpty_iff, hempty]
    have hf2 : (processMeds penv cm age vr.medications).2.isEmpty = false := by
      simpa [List.isEmpty_iff] using hfail
    constructor
    · unfold processResponse
      rw [hg]
      simp only [Bool.false_eq_true, if_false]
      rw [if_pos hz, hf2]
      simp only [Bool.false_eq_true, if_false]
    · exact hfail

/-- Witness for C5: one unrecognizable medication (`xyzzy`, no approximate
candidates) makes the pipeline answer an error response that carries the
non-empty failure list. -/
theorem pipeline_success_invariant_witness :
    errFailedList (processResponse { validator := approxOnlyEnv [], inter := noRxcuiEnv }
        [] none
        { medications := [medNamed "xyzzy".toList], error := none, note := none }) =
      some (processMeds { validator := approxOnlyEnv [], inter := noRxcuiEnv } [] none
        [medNamed "xyzzy".toList]).2 ∧
    (processMeds { validator := approxOnlyEnv [], inter := noRxcuiEnv } [] none
      [medNamed "xyzzy".toList]).2 ≠ [] := by
  have henv : ∀ n cands,
      (approxOnlyEnv ([] : List ApproxCand)).approx n = .ok cands →
      ∀ c ∈ cands, c.name ≠ sentinel := by
    intro n cands hok c hc
    obtain rfl : ([] : List ApproxCand) = cands := Except.ok.inj hok
    exact absurd hc (List.not_mem_nil c)
  have h := (pipeline_success_invariant
      { validator := approxOnlyEnv [], inter := noRxcuiEnv } [] none
      { medications := [medNamed "xyzzy".toList], error := none, note := none }
      henv).2.2 rfl (by decide) (by decide)
  refine ⟨?_, h.2⟩
  rw [h.1]
  rfl

section
attribute [local semireducible] Rat.mul Rat.add Rat.sub Rat.inv Rat.ofScientific

/-- Counterexample for C4: the generated card `renal` triggers the gate
(jargon hit), yet the emitted card still contains the jargon word `renal`
after simplification (the substitution table has no entry for it) and is not
the minimal fallback card. -/
theorem nudge_gate_counterexample :
    detectMedicalJargon (nudgeFullText renalJson) ≠ [] ∧
    ¬ ((calculateFleschKincaid
          (nudgeFullText (nudgeFinalCard renalJson (medNamed "aspirin".toList) [])) ≤ 8 ∧
        detectMedicalJargon
          (nudgeFullText (nudgeFinalCard renalJson (medNamed "aspirin".toList) [])) = []) ∨
      nudgeFinalCard renalJson (medNamed "aspirin".toList) [] =
        minimalCard (medNamed "aspirin".toList) []) := by
  decide

/-- C4 (amended).  When a generated card's combined text fails the
plain-language gate (grade level above 8 or a jargon hit), the emitted card
is the generated card with every field passed through `simplifyText`; the
result is used without re-validation, so it need not itself pass the gate
(the minimal fallback card is used only when generation is unavailable or
throws). -/
theorem nudge_gate_amended (json : NudgeCard) (extractedData : ExtractedData)
    (interactions : List Finding)
    (hfail : (validatePlainLanguage (nudgeFullText json)).isPlain = false) :
    nudgeFinalCard json extractedData interactions = simplifiedCard json interactions := by
  unfold nudgeFinalCard
  simp only [hfail, Bool.not_false, if_true]

/-- Witness for C4's amended theorem: the `renal` card fails the gate and
the emitted card is its field-wise simplification. -/
theorem nudge_gate_amended_witness :
    (validatePlainLanguage (nudgeFullText renalJson)).isPlain = false ∧
    nudgeFinalCard renalJson (medNamed "aspirin".toList) [] =
      simplifiedCard renalJson [] :=
  ⟨by decide, nudge_gate_amended renalJson (medNamed "aspirin".toList) [] (by decide)⟩

end

/-- C8.  `checkInteractions` never lets a service failure escape: it is a
total function over every environment, and when the canonical-identifier
lookup yields nothing, or the body of service calls throws, it returns the
static fallback results — which contain a tier-1 finding for every current
medication forming a known dangerous combination with the drug, plus every
static dietary interaction. -/
theorem checkInteractions_fallback (env : InterEnv) (drugName : Str)
    (currentMeds : List Str) :
    (env.rxcui drugName = none →
      checkInteractions env drugName currentMeds =
        getFallbackInteractions drugName currentMeds)
    ∧ (∀ r, env.rxcui drugName = some r →
        checkInteractionsBody env r drugName currentMeds = .error () →
        checkInteractions env drugName currentMeds =
          getFallbackInteractions drugName currentMeds)
    ∧ (∀ med ∈ currentMeds, ∀ meds0,
        knownInteractions (lowerStr drugName) = some meds0 →
        meds0.contains (lowerStr med) = true →
        fallbackDangerFinding drugName med ∈ getFallbackInteractions drugName currentMeds ∧
        (fallbackDangerFinding drugName med).tier = 1)
    ∧ (∀ f ∈ getDietaryInteractions drugName,
        f ∈ getFallbackInteractions drugName currentMeds) := by
  refine ⟨?_, ?_, ?_, ?_⟩
  · intro h
    unfold checkInteractions
    rw [h]
  · intro r hr hb
    unfold checkInteractions
    rw [hr]
    dsimp only
    rw [hb]
  · intro med hmed meds0 hk hmem
    refine ⟨?_, rfl⟩
    unfold getFallbackInteractions
    dsimp only
    rw [hk]
    apply List.mem_append_left
    rw [List.mem_filterMap]
    exact ⟨med, hmed, by rw [if_pos hmem]⟩
  · intro f hf
    unfold getFallbackInteractions
    exact List.mem_append_right _ hf

/-- Witness for C8: with an unreachable interaction service, checking
`warfarin` against current medication `aspirin` returns the fallback table
results, which contain the tier-1 danger finding. -/
theorem checkInteractions_fallback_witness :
    checkInteractions noRxcuiEnv "warfarin".toList ["aspirin".toList] =
      getFallbackInteractions "warfarin".toList ["aspirin".toList] ∧
    fallbackDangerFinding "warfarin".toList "aspirin".toList ∈
      checkInteractions noRxcuiEnv "warfarin".toList ["aspirin".toList] ∧
    (fallbackDangerFinding "warfarin".toList "aspirin".toList).tier = 1 := by
  have h := checkInteractions_fallback noRxcuiEnv "warfarin".toList ["aspirin".toList]
  have h1 := h.1 rfl
  have h3 := h.2.2.1 "aspirin".toList (by decide)
    ["aspirin".toList, "ibuprofen".toList, "naproxen".toList] (by decide) (by decide)
  exact ⟨h1, by rw [h1]; exact h3.1, h3.2⟩

/-- C9.  Age-70 `diphenhydramine` scenario: `checkAgeWarnings` returns
exactly one warning, of category `elderly` and severity `moderate`; with no
dosage and no interaction findings, `comprehensiveSafetyCheck` reports
`overallSeverity = moderate`; and `determineSafetyFlag` on the empty finding
set still answers `GREEN` — the age warning does not escalate the
interaction-driven flag. -/
theorem age70_diphenhydramine_scenario :
    checkAgeWarnings "diphenhydramine".toList 70 =
      [{ category := "elderly".toList, severity := "moderate".toList,
         warning := "Can cause confusion and dizziness in seniors".toList,
         alternatives := some "Consider non-drowsy alternatives".toList, note := none }] ∧
    (comprehensiveSafetyCheck "diphenhydramine".toList [] (some 70) []).overallSeverity =
      "moderate".toList ∧
    (determineSafetyFlag []).flag = "GREEN".toList := by
  decide

/-- Writing a memory-cache entry makes it the one `memGet` finds. -/
theorem memGet_memSet (st : ServerState) (h : ℕ) (e : MemEntry) :
    memGet (memSet st h e) h = some e := by
  unfold memGet memSet
  simp

/-- An unexpired in-memory hit answers immediately: cached data, unchanged
state, no extraction, and no durable-tier query. -/
theorem handleProcess_local_hit (st : ServerState) (now h : ℕ) (env : ServerEnv)
    (e : MemEntry) (hmem : memGet st h = some e) (hlt : now < e.expiresAt) :
    handleProcess st now h false env =
      { response := .ok e.data, state := st, didExtract := false, dbRead := false } := by
  unfold handleProcess
  simp only [Bool.not_false, if_true]
  rw [hmem]
  dsimp only
  rw [if_pos hlt]

/-- Without `forceRefresh`, a request either answers from a cache tier
(performing no extraction work) or goes through the extraction arm with the
durable tier already queried. -/
theorem handleProcess_extract (st : ServerState) (now h : ℕ) (env : ServerEnv) :
    (handleProcess st now h false env).didExtract = false ∨
    handleProcess st now h false env = extractAndRespond st now h env true := by
  unfold handleProcess
  simp only [Bool.not_false, if_true]
  rcases memGet st h with _ | cached
  · dsimp only
    rcases dbGet st h now with _ | row
    · right; rfl
    · left; rfl
  · dsimp only
    by_cases hlt : now < cached.expiresAt
    · rw [if_pos hlt]; left; rfl
    · rw [if_neg hlt]
      rcases dbGet st h now with _ | row
      · right; rfl
      · left; rfl

/-- A successful extraction arm writes the fresh entry to both tiers and
answers with the normalized result. -/
theorem extractAndRespond_ok (st : ServerState) (now h : ℕ) (env : ServerEnv)
    (dbr : Bool) (fr : FinalResult)
    (hpr : processResponse env.penv env.currentMeds env.patientAge env.vision = .ok fr) :
    extractAndRespond st now h env dbr =
      { response := .ok fr
        state := { mem := (memSet st h { data := fr, expiresAt := now + CACHE_TTL }).mem
                   db := st.db ++ [{ image_hash := h, raw_vision_json := env.vision
                                     normalized_result := fr, expires_at := now + CACHE_TTL }] }
        didExtract := true
        dbRead := dbr } := by
  unfold extractAndRespond
  rw [hpr]
  rfl

/-- C6.  Idempotent cache: after a first request that performed extraction
and succeeded, an identical request inside the TTL answers with the very
same normalized response, performs no extraction work (so extraction ran
exactly once across the two calls) and does not query the durable tier;
moreover, in general, an unexpired in-memory hit never touches the durable
tier. -/
theorem pipeline_cache_idempotent (st : ServerState) (t0 t1 h : ℕ)
    (env env' : ServerEnv)
    (hx : (handleProcess st t0 h false env).didExtract = true)
    (hok : respIsOk (handleProcess st t0 h false env).response = true)
    (ht : t1 < t0 + CACHE_TTL) :
    ((handleProcess (handleProcess st t0 h false env).state t1 h false env').response =
        (handleProcess st t0 h false env).response ∧
      (handleProcess (handleProcess st t0 h false env).state t1 h false env').didExtract =
        false ∧
      (handleProcess (handleProcess st t0 h false env).state t1 h false env').dbRead = false)
    ∧ (∀ (st' : ServerState) (now h' : ℕ) (env'' : ServerEnv) (e : MemEntry),
        memGet st' h' = some e → now < e.expiresAt →
        handleProcess st' now h' false env'' =
          { response := .ok e.data, state := st', didExtract := false, dbRead := false }) := by
  refine ⟨?_, fun st' now h' env'' e hm hl => handleProcess_local_hit st' now h' env'' e hm hl⟩
  have he : handleProcess st t0 h false env = extractAndRespond st t0 h env true := by
    rcases handleProcess_extract st t0 h env with hc | hc
    · rw [hx] at hc
      exact absurd hc (by simp)
    · exact hc
  rcases hpr : processResponse env.penv env.currentMeds env.patientAge env.vision with e | fr
  · rw [he] at hok
    unfold extractAndRespond at hok
    rw [hpr] at hok
    exact absurd hok (by simp [respIsOk])
  · have ho1 := extractAndRespond_ok st t0 h env true fr hpr
    rw [he, ho1]
    have hmem : memGet (extractAndRespond st t0 h env true).state h =
        some { data := fr, expiresAt := t0 + CACHE_TTL } := by
      rw [ho1]
      show memGet _ h = _
      have : memGet { mem := (memSet st h { data := fr, expiresAt := t0 + CACHE_TTL }).mem
                      db := st.db ++ [{ image_hash := h, raw_vision_json := env.vision
                                        normalized_result := fr, expires_at := t0 + CACHE_TTL }] } h =
          memGet (memSet st h { data := fr, expiresAt := t0 + CACHE_TTL }) h := rfl
      rw [this, memGet_memSet]
    rw [ho1] at hmem
    have h2 := handleProcess_local_hit _ t1 h env'
      { data := fr, expiresAt := t0 + CACHE_TTL } hmem ht
    rw [h2]
    exact ⟨rfl, rfl, rfl⟩

/-- C7.  Force-refresh bypass: with `forceRefresh` set the handler reads
neither cache tier and always performs extraction, and a successful run
still writes the fresh entry to both the in-memory and the durable tier. -/
theorem force_refresh_bypass (st : ServerState) (now h : ℕ) (env : ServerEnv) :
    (handleProcess st now h true env).didExtract = true ∧
    (handleProcess st now h true env).dbRead = false ∧
    (∀ fr, processResponse env.penv env.currentMeds env.patientAge env.vision = .ok fr →
      (handleProcess st now h true env).response = .ok fr ∧
      memGet (handleProcess st now h true env).state h =
        some { data := fr, expiresAt := now + CACHE_TTL } ∧
      (handleProcess st now h true env).state.db =
        st.db ++ [{ image_hash := h, raw_vision_json := env.vision
                    normalized_result := fr, expires_at := now + CACHE_TTL }]) := by
  have hforce : handleProcess st now h true env = extractAndRespond st now h env false := by
    unfold handleProcess
    simp
  rw [hforce]
  refine ⟨?_, ?_, ?_⟩
  · unfold extractAndRespond
    rcases processResponse env.penv env.currentMeds env.patientAge env.vision with e | fr <;> rfl
  · unfold extractAndRespond
    rcases processResponse env.penv env.currentMeds env.patientAge env.vision with e | fr <;> rfl
  · intro fr hpr
    rw [extractAndRespond_ok st now h env false fr hpr]
    refine ⟨rfl, ?_, rfl⟩
    show memGet _ h = _
    have : memGet { mem := (memSet st h { data := fr, expiresAt := now + CACHE_TTL }).mem
                    db := st.db ++ [{ image_hash := h, raw_vision_json := env.vision
                                      normalized_result := fr, expires_at := now + CACHE_TTL }] } h =
        memGet (memSet st h { data := fr, expiresAt := now + CACHE_TTL }) h := rfl
    rw [this, memGet_memSet]

/-- Witness for C6: uploading the `warfarin` prescription twice (hash `7`,
second call 1 ms after the first) returns the first response verbatim with
no second extraction and no durable-tier query. -/
theorem pipeline_cache_idempotent_witness :
    (handleProcess (handleProcess ⟨[], []⟩ 0 7 false warfarinServerEnv).state 1 7 false
        warfarinServerEnv).response =
      (handleProcess ⟨[], []⟩ 0 7 false warfarinServerEnv).response ∧
    (handleProcess (handleProcess ⟨[], []⟩ 0 7 false warfarinServerEnv).state 1 7 false
        warfarinServerEnv).didExtract = false ∧
    (handleProcess (handleProcess ⟨[], []⟩ 0 7 false warfarinServerEnv).state 1 7 false
        warfarinServerEnv).dbRead = false :=
  (pipeline_cache_idempotent ⟨[], []⟩ 0 1 7 warfarinServerEnv warfarinServerEnv
    (by decide) (by decide) (by decide)).1

/-- Witness for C7: with a valid unexpired cache entry for hash `7` already
present, a forced refresh still extracts, reads no tier, and rewrites the
in-memory entry. -/
theorem force_refresh_bypass_witness :
    (handleProcess ⟨[(7, ⟨⟨[], 0, none, none⟩, 1000000000⟩)], []⟩ 0 7 true
        warfarinServerEnv).didExtract = true ∧
    (handleProcess ⟨[(7, ⟨⟨[], 0, none, none⟩, 1000000000⟩)], []⟩ 0 7 true
        warfarinServerEnv).dbRead = false ∧
    (memGet (handleProcess ⟨[(7, ⟨⟨[], 0, none, none⟩, 1000000000⟩)], []⟩ 0 7 true
        warfarinServerEnv).state 7).isSome = true := by
  have h := force_refresh_bypass ⟨[(7, ⟨⟨[], 0, none, none⟩, 1000000000⟩)], []⟩ 0 7
    warfarinServerEnv
  refine ⟨h.1, h.2.1, ?_⟩
  rcases hpr : processResponse warfarinServerEnv.penv warfarinServerEnv.currentMeds
      warfarinServerEnv.patientAge warfarinServerEnv.vision with e | fr
  · exfalso
    have hok : respIsOk (processResponse warfarinServerEnv.penv warfarinServerEnv.currentMeds
        warfarinServerEnv.patientAge warfarinServerEnv.vision) = true := by decide
    rw [hpr] at hok
    exact absurd hok (by simp [respIsOk])
  · have h3 := h.2.2 fr hpr
    rw [h3.2.1]
    rfl

/-- C10.  In the confirmation/nudge stage, a non-`skipValidation` medication
whose validation returns a correction always gets the corrected name — the
keep-original-above-`0.85` policy of the extraction stage is not applied —
and a medication whose validation fails is dropped from the batch output
(which, by the shape of `BatchResp`, carries no failure record at all). -/
theorem batch_correction_policy (penv : PipelineEnv) (genv : NudgeGenEnv) (pc : PatientCtx)
    (allMedicationNames : List Str) (med : BatchMed)
    (hskip : med.skipValidation = false) :
    ((validateAndNormalizeDrugName penv.validator med.extracted_data.drug_name).valid = true →
      (validateAndNormalizeDrugName penv.validator
        med.extracted_data.drug_name).wasCorrected = true →
      ∃ out, batchStep penv genv pc allMedicationNames med = some out ∧
        some out.extracted_data.drug_name =
          (validateAndNormalizeDrugName penv.validator
            med.extracted_data.drug_name).correctedName)
    ∧ ((validateAndNormalizeDrugName penv.validator med.extracted_data.drug_name).valid = false →
        batchStep penv genv pc allMedicationNames med = none) := by
  obtain ⟨-, hshape⟩ := validator_shape penv.validator med.extracted_data.drug_name
  constructor
  · intro hv hw
    obtain ⟨-, -, cands, c, -, -, hcorr, -, -⟩ := hshape hw
    unfold batchStep
    rw [hskip]
    simp only [Bool.false_eq_true, if_false, hv, Bool.not_true, hw, if_true]
    dsimp only
    refine ⟨_, rfl, ?_⟩
    dsimp only
    rw [hcorr]
    rfl
  · intro hv
    unfold batchStep
    rw [hskip]
    simp only [Bool.false_eq_true, if_false, hv, Bool.not_false, if_true]

/-- Witness for C10: the input `abcdefghiX` is corrected to `abcdefghij`
with similarity `0.9 > 0.85`, and the batch output still carries the
corrected name. -/
theorem batch_correction_policy_witness :
    (batchStep { validator := approxOnlyEnv [highConfCand], inter := noRxcuiEnv }
        noKeyGenEnv { age := none } []
        { extracted_data := medNamed "abcdefghiX".toList, skipValidation := false }).map
      (fun out => out.extracted_data.drug_name) = some "abcdefghij".toList := by
  obtain ⟨out, hout, hname⟩ :=
    (batch_correction_policy { validator := approxOnlyEnv [highConfCand], inter := noRxcuiEnv }
      noKeyGenEnv { age := none } []
      { extracted_data := medNamed "abcdefghiX".toList, skipValidation := false } rfl).1
      (by decide) (by decide)
  rw [hout]
  show some out.extracted_data.drug_name = some "abcdefghij".toList
  rw [hname]
  decide

/-- Witness for C1: prepending a tier-1 finding to the empty finding set. -/
theorem determineSafetyFlag_spec_witness :
    flagRank (determineSafetyFlag []).flag ≤
      flagRank (determineSafetyFlag
        [{ tier := 1, drug := "aspirin".toList, description := [],
           severity := none, recommendation := [] }]).flag :=
  (determineSafetyFlag_spec []).2.2.2
    { tier := 1, drug := "aspirin".toList, description := [],
      severity := none, recommendation := [] } rfl

end DrNudge
